import Mathlib

/-!
# scappit: region selection, canvas and annotation items

A shallow embedding of `scappit.cpp`.  Widgets become records, event handlers
become functions from the state before the event to the state after it, and
calls into the toolkit that the program only forwards to (default event
handling, screen grabbing, file loading) are either reported in the result or
read from an explicit environment record.

`qreal` quantities are modelled by an arbitrary linearly ordered field `R`
(exact arithmetic); `int` quantities by `Int`.  Item identity (the C++ pointer) is a
natural number.  Painting, saving, the colour dialog and the close prompt are outside the
model.
-/

namespace scappit

/-! ## Toolkit value types -/

/-- Integer point (`QPoint`). -/
structure QPoint where
  x : Int
  y : Int
  deriving DecidableEq, Repr

/-- Integer size (`QSize`). -/
structure QSize where
  width : Int
  height : Int
  deriving DecidableEq, Repr

/-- Integer rectangle (`QRect`), stored by its two corner pixels like the toolkit does. -/
structure QRect where
  x1 : Int
  y1 : Int
  x2 : Int
  y2 : Int
  deriving DecidableEq, Repr

namespace QRect

/-- Default-constructed rectangle `QRect()`. -/
def null : QRect := ⟨0, 0, -1, -1⟩

/-- Constructor `QRect(x, y, w, h)`. -/
def ofXYWH (x y w h : Int) : QRect := ⟨x, y, x + w - 1, y + h - 1⟩

def topLeft (r : QRect) : QPoint := ⟨r.x1, r.y1⟩
def bottomRight (r : QRect) : QPoint := ⟨r.x2, r.y2⟩
def setTopLeft (r : QRect) (p : QPoint) : QRect := { r with x1 := p.x, y1 := p.y }
def setBottomRight (r : QRect) (p : QPoint) : QRect := { r with x2 := p.x, y2 := p.y }
def x (r : QRect) : Int := r.x1
def y (r : QRect) : Int := r.y1
def width (r : QRect) : Int := r.x2 - r.x1 + 1
def height (r : QRect) : Int := r.y2 - r.y1 + 1

end QRect

/-- Real-valued point (`QPointF`). -/
structure QPointF (R : Type) where
  x : R
  y : R

/-- Real-valued size (`QSizeF`). -/
structure QSizeF (R : Type) where
  width : R
  height : R

/-- Real-valued rectangle (`QRectF`), stored as corner plus extents. -/
structure QRectF (R : Type) where
  xp : R
  yp : R
  w : R
  h : R

/-- Rounding of a `qreal` to `int` (`qRound`): half away from zero. -/
def qRound {R : Type} [LinearOrderedField R] [FloorRing R] (d : R) : Int :=
  if 0 ≤ d then ⌊d + 1 / 2⌋ else ⌈d - 1 / 2⌉

namespace QSizeF

/-- Conversion `QSizeF::toSize`. -/
def toSize {R : Type} [LinearOrderedField R] [FloorRing R] (s : QSizeF R) : QSize :=
  ⟨qRound s.width, qRound s.height⟩

end QSizeF

namespace QRectF

variable {R : Type} [LinearOrderedField R]

/-- Conversion constructor `QRectF(const QRect&)`. -/
def ofQRect (r : QRect) : QRectF R := ⟨(r.x : R), (r.y : R), (r.width : R), (r.height : R)⟩

def topLeft (r : QRectF R) : QPointF R := ⟨r.xp, r.yp⟩
def setWidth (r : QRectF R) (w : R) : QRectF R := { r with w := w }
def setHeight (r : QRectF R) (h : R) : QRectF R := { r with h := h }
def size (r : QRectF R) : QSizeF R := ⟨r.w, r.h⟩
def left (r : QRectF R) : R := r.xp
def top (r : QRectF R) : R := r.yp
def width (r : QRectF R) : R := r.w
def height (r : QRectF R) : R := r.h

/-- Normal form `QRectF::normalized`: a negative extent is flipped, each axis on its own. -/
def normalized (r : QRectF R) : QRectF R :=
  let r1 := if r.w < 0 then { r with xp := r.xp + r.w, w := -r.w } else r
  if r1.h < 0 then { r1 with yp := r1.yp + r1.h, h := -r1.h } else r1

/-- Smallest integer rectangle containing the rectangle (`QRectF::toAlignedRect`). -/
def toAlignedRect [FloorRing R] (r : QRectF R) : QRect :=
  let xmin : Int := ⌊r.xp⌋
  let xmax : Int := ⌈r.xp + r.w⌉
  let ymin : Int := ⌊r.yp⌋
  let ymax : Int := ⌈r.yp + r.h⌉
  QRect.ofXYWH xmin ymin (xmax - xmin) (ymax - ymin)

end QRectF

/-- Real-valued line segment (`QLineF`). -/
structure QLineF (R : Type) where
  p1 : QPointF R
  p2 : QPointF R

namespace QLineF

def setP2 {R : Type} (l : QLineF R) (p : QPointF R) : QLineF R := { l with p2 := p }

end QLineF

/-- Colour value (`QColor`), as red, green and blue channels. -/
structure QColor where
  red : Nat
  green : Nat
  blue : Nat
  deriving DecidableEq, Repr

def QColor.white : QColor := ⟨255, 255, 255⟩
def QColor.qtRed : QColor := ⟨255, 0, 0⟩

/-- Pen join styles used by the program. -/
inductive JoinStyle
  | bevelJoin
  | miterJoin
  deriving DecidableEq, Repr

/-- Outline pen (`QPen`): colour, width and join style. -/
structure QPen where
  colour : QColor
  width : Nat
  join : JoinStyle
  deriving DecidableEq, Repr

/-- Where the pixels of a pixmap came from. -/
inductive PixmapSource
  | file (path : String)
  | window (id : Nat)
  | region (x y w h : Int)
  deriving DecidableEq, Repr

/-- Pixel buffer (`QPixmap`): only its provenance and its size are modelled. -/
structure QPixmap where
  source : PixmapSource
  width : Int
  height : Int
  deriving DecidableEq, Repr

/-- Pointer event (`QMouseEvent`): widget position, screen position, primary button state. -/
structure QMouseEvent where
  pos : QPoint
  globalPos : QPoint
  leftButton : Bool
  deriving DecidableEq, Repr

/-! ## Scene items -/

/-- Item flags that the program touches. -/
structure ItemFlags where
  movable : Bool
  selectable : Bool
  focusable : Bool
  sendsGeometryChanges : Bool
  deriving DecidableEq, Repr

/-- Text interaction modes used by the program. -/
inductive TextInteraction
  | NoTextInteraction
  | TextEditorInteraction
  deriving DecidableEq, Repr

/-- Numeric routines the arrow geometry calls: `cos`, `sin` and `M_PI` of the C library,
and `QLineF::length` and `QLineF::angle` (in degrees) of the toolkit. -/
structure MathLib (R : Type) where
  cos : R → R
  sin : R → R
  pi : R
  length : QLineF R → R
  angle : QLineF R → R

/-- One element of a painter path. -/
inductive PathElement (R : Type)
  | moveTo (p : QPointF R)
  | lineTo (p : QPointF R)

/-- The point an element moves or draws to. -/
def PathElement.point {R : Type} : PathElement R → QPointF R
  | .moveTo p => p
  | .lineTo p => p

/-- Painter path (`QPainterPath`) made of straight segments: its elements in order. -/
abbrev QPainterPath (R : Type) := List (PathElement R)

namespace QPainterPath

variable {R : Type}

/-- A default-constructed path: no elements yet. -/
def empty : QPainterPath R := []

/-- Current position of a path: the point of its last element; a path without elements
starts at the origin (the toolkit gives it an initial move to (0,0) on first use). -/
def currentPosition [Zero R] (path : QPainterPath R) : QPointF R :=
  match path.getLast? with
  | some el => el.point
  | none => ⟨0, 0⟩

/-- Toolkit `moveTo`: a trailing move element is overwritten, otherwise a move element is
appended. -/
def moveTo (path : QPainterPath R) (p : QPointF R) : QPainterPath R :=
  match path.getLast? with
  | some (.moveTo _) => path.dropLast ++ [.moveTo p]
  | some (.lineTo _) => path ++ [.moveTo p]
  | none => [.moveTo p]

/-- Toolkit `lineTo`: nothing is added when the point equals the current position,
otherwise a line element is appended.  Equality is exact here; the toolkit compares
with a tolerance of about 1e-12, far below the distance between two vertices of an
arrow whose endpoints are different pixel positions. -/
def lineTo [Zero R] [DecidableEq R] (path : QPainterPath R) (p : QPointF R) :
    QPainterPath R :=
  let path : QPainterPath R := if path.isEmpty then [.moveTo ⟨0, 0⟩] else path
  if p.x = path.currentPosition.x ∧ p.y = path.currentPosition.y then path
  else path ++ [.lineTo p]

/-- Toolkit `isEmpty`: a path without elements or with a single move element. -/
def hasNoSegments (path : QPainterPath R) : Bool :=
  match path with
  | [] => true
  | [.moveTo _] => true
  | _ => false

/-- Toolkit `addPath`: an empty `other` changes nothing; otherwise a trailing move
element of the path is removed and the elements of `other` are appended. -/
def addPath [Zero R] (path other : QPainterPath R) : QPainterPath R :=
  if other.hasNoSegments then path
  else
    let path : QPainterPath R := if path.isEmpty then [.moveTo ⟨0, 0⟩] else path
    match path.getLast? with
    | some (.moveTo _) => path.dropLast ++ other
    | _ => path ++ other

end QPainterPath

/-- Arrow item: the shaft line, the fill colour and the outline pen. -/
structure Arrow (R : Type) where
  line : QLineF R
  colour : QColor
  pen : QPen

/-- Ellipse item: the stored rectangle, the colour and the outline pen. -/
structure Ellipse (R : Type) where
  rect : QRectF R
  colour : QColor
  pen : QPen

/-- Text item: position, wrapping width, colour and interaction mode. -/
structure Text (R : Type) where
  pos : QPointF R
  textWidth : R
  colour : QColor
  interaction : TextInteraction

/-- Screenshot item: the pixels and where they are placed. -/
structure Screencap (R : Type) where
  pixmap : QPixmap
  pos : QPointF R

/-- The four concrete item classes. -/
inductive ItemBody (R : Type)
  | arrow (a : Arrow R)
  | ellipse (e : Ellipse R)
  | text (t : Text R)
  | screencap (s : Screencap R)

/-- An item living in a scene (`SceneItem<Parent>`): its identity (the pointer), the
toolkit state of every graphics item, and the class-specific part. -/
structure SceneItem (R : Type) where
  addr : Nat
  flags : ItemFlags
  selected : Bool
  body : ItemBody R

namespace Arrow

variable {R : Type}

/-- Constructor `Arrow(scene, origin, colour)`, class-specific part. -/
def new (origin : QPointF R) (colour : QColor) : Arrow R :=
  { line := ⟨origin, origin⟩, colour := colour,
    pen := ⟨QColor.white, 2, JoinStyle.miterJoin⟩ }

def sizeTo (a : Arrow R) (x : QPointF R) : Arrow R := { a with line := a.line.setP2 x }

/-- Vertex `vertex(mhyp, dang)`: the point at `mhyp` times the shaft length from the
origin, at the shaft angle plus `dang` degrees (the y axis points down). -/
def vertex [Field R] (m : MathLib R) (a : Arrow R) (mhyp dang : R) : QPointF R :=
  ⟨a.line.p1.x + (m.length a.line * mhyp) * m.cos ((m.angle a.line + dang) * m.pi / 180),
   a.line.p1.y - (m.length a.line * mhyp) * m.sin ((m.angle a.line + dang) * m.pi / 180)⟩

/-- Outline `path()` of the arrow: a move to the origin and six `lineTo` calls. -/
def path [Field R] [DecidableEq R] (m : MathLib R) (a : Arrow R) : QPainterPath R :=
  let path : QPainterPath R := QPainterPath.empty
  let path := path.moveTo a.line.p1
  let path := path.lineTo (a.vertex m 0.8 3)
  let path := path.lineTo (a.vertex m 0.8 8)
  let path := path.lineTo a.line.p2
  let path := path.lineTo (a.vertex m 0.8 (-8))
  let path := path.lineTo (a.vertex m 0.8 (-3))
  let path := path.lineTo a.line.p1
  path

/-- Hit shape `shape()`: the stroke outline of the path, made by the toolkit stroker
from the pen (given here as `createStroke`), with the path itself added to it. -/
def shape [Field R] [DecidableEq R] (m : MathLib R)
    (createStroke : QPen → QPainterPath R → QPainterPath R) (a : Arrow R) :
    QPainterPath R :=
  (createStroke a.pen (a.path m)).addPath (a.path m)

end Arrow

namespace Ellipse

variable {R : Type} [LinearOrderedField R]

/-- Constructor `Ellipse(scene, origin, colour)`, class-specific part. -/
def new (origin : QPointF R) (colour : QColor) : Ellipse R :=
  { rect := ⟨origin.x, origin.y, 0, 0⟩, colour := colour,
    pen := ⟨QColor.white, 10, JoinStyle.bevelJoin⟩ }

def sizeTo (e : Ellipse R) (p : QPointF R) : Ellipse R :=
  let r := e.rect
  let r := r.setHeight (p.y - r.topLeft.y)
  let r := r.setWidth (p.x - r.topLeft.x)
  { e with rect := r }

end Ellipse

namespace Text

variable {R : Type} [LinearOrderedField R]

/-- Constructor `Text(scene, origin, colour)`, class-specific part; a fresh text item has
no wrapping width (`-1`) and no text interaction. -/
def new (origin : QPointF R) (colour : QColor) : Text R :=
  { pos := origin, textWidth := -1, colour := colour,
    interaction := TextInteraction.NoTextInteraction }

def sizeTo (t : Text R) (p : QPointF R) : Text R := { t with textWidth := p.x - t.pos.x }

def mouseDoubleClickEvent (t : Text R) : Text R :=
  { t with interaction := TextInteraction.TextEditorInteraction }

def lostFocus (t : Text R) : Text R :=
  { t with interaction := TextInteraction.TextEditorInteraction }

end Text

namespace Screencap

def sizeTo {R : Type} (s : Screencap R) (_p : QPointF R) : Screencap R := s

end Screencap

namespace SceneItem

variable {R : Type} [LinearOrderedField R]

/-- Flags set by the `SceneItem` constructor on every new item. -/
def initialFlags : ItemFlags := ⟨true, true, true, true⟩

/-- Virtual `DragSizeable::sizeTo`, dispatched on the item class. -/
def sizeTo (i : SceneItem R) (p : QPointF R) : SceneItem R :=
  match i.body with
  | .arrow a => { i with body := .arrow (a.sizeTo p) }
  | .ellipse e => { i with body := .ellipse (e.sizeTo p) }
  | .text t => { i with body := .text (t.sizeTo p) }
  | .screencap s => { i with body := .screencap (s.sizeTo p) }

/-- Virtual `DragSizeable::lostFocus`: only `Text` overrides the empty default. -/
def lostFocus (i : SceneItem R) : SceneItem R :=
  match i.body with
  | .text t => { i with body := .text t.lostFocus }
  | _ => i

/-- Toolkit `setSelected`: an item that is not selectable cannot become selected. -/
def setSelected (i : SceneItem R) (v : Bool) : SceneItem R :=
  { i with selected := v && i.flags.selectable }

end SceneItem

/-! ## Scene -/

/-- The scene (`QGraphicsScene`): items in insertion order, the next free item address, and
the scene rectangle when one was set explicitly. -/
structure QGraphicsScene (R : Type) where
  items : List (SceneItem R)
  nextAddr : Nat
  sceneRect : Option (QRectF R)

namespace QGraphicsScene

variable {R : Type}

/-- A scene without items. -/
def empty : QGraphicsScene R := ⟨[], 0, none⟩

/-- Allocation and insertion of a new item, as done by the `SceneItem` constructor:
the item gets a fresh address, the four flags, and goes after the existing items. -/
def addNew (s : QGraphicsScene R) (body : ItemBody R) : QGraphicsScene R :=
  { s with items := s.items ++ [⟨s.nextAddr, SceneItem.initialFlags, false, body⟩],
           nextAddr := s.nextAddr + 1 }

def setSceneRect (s : QGraphicsScene R) (r : QRectF R) : QGraphicsScene R :=
  { s with sceneRect := some r }

def selectedItems (s : QGraphicsScene R) : List Nat :=
  (s.items.filter (fun i => i.selected)).map (fun i => i.addr)

def clearSelection (s : QGraphicsScene R) : QGraphicsScene R :=
  { s with items := s.items.map (fun i => { i with selected := false }) }

/-- Destruction of the item at address `a`: it leaves the scene. -/
def deleteItem (s : QGraphicsScene R) (a : Nat) : QGraphicsScene R :=
  { s with items := s.items.filter (fun i => i.addr != a) }

/-- Helper `qDeleteAll`: every listed item is destroyed, one after the other. -/
def qDeleteAll (s : QGraphicsScene R) (l : List Nat) : QGraphicsScene R :=
  l.foldl deleteItem s

/-- Member `clear()`: all items are removed and destroyed. -/
def clear (s : QGraphicsScene R) : QGraphicsScene R := { s with items := [] }

/-- Update of the item at address `a` in place. -/
def modify (s : QGraphicsScene R) (a : Nat) (f : SceneItem R → SceneItem R) :
    QGraphicsScene R :=
  { s with items := s.items.map (fun i => if i.addr = a then f i else i) }

/-- Every item address is below the allocator mark and no two items share an address. -/
def WellFormed (s : QGraphicsScene R) : Prop :=
  (∀ i ∈ s.items, i.addr < s.nextAddr) ∧ (s.items.map (fun i => i.addr)).Nodup

end QGraphicsScene

/-! ## Environment -/

/-- What the handlers read from outside the program: the X server (window under the
pointer, pixel size of a grab), the file system (pixel size of an image file) and the
toolkit layout (viewport size, window size at creation, bounding rectangle of the
items of a scene that has no explicit scene rectangle). -/
structure Desktop (R : Type) where
  pointerChild : Nat
  pixelSize : PixmapSource → QSize
  viewportSize : QSize
  initialSize : QSize
  itemsRect : List (SceneItem R) → QRectF R

namespace Desktop

/-- Pixels obtained from a source (`grabWindow`, or `QPixmap(file)`). -/
def pixmap {R : Type} (d : Desktop R) (src : PixmapSource) : QPixmap :=
  ⟨src, (d.pixelSize src).width, (d.pixelSize src).height⟩

end Desktop

namespace QGraphicsScene

variable {R : Type} [LinearOrderedField R]

/-- Accessor `sceneRect()`: the explicit rectangle when set, else the items rectangle. -/
def currentRect (d : Desktop R) (s : QGraphicsScene R) : QRectF R :=
  match s.sceneRect with
  | some r => r
  | none => d.itemsRect s.items

def width (d : Desktop R) (s : QGraphicsScene R) : R := (s.currentRect d).width
def height (d : Desktop R) (s : QGraphicsScene R) : R := (s.currentRect d).height

end QGraphicsScene

namespace SceneItem

variable {R : Type}

/-- Position update `setPos` of a screenshot item. -/
def setPos (i : SceneItem R) (p : QPointF R) : SceneItem R :=
  match i.body with
  | .screencap s => { i with body := .screencap { s with pos := p } }
  | _ => i

/-- The three `setFlag(..., false)` calls of a fixed screenshot; an item that stops
being selectable also stops being selected. -/
def pin (i : SceneItem R) : SceneItem R :=
  { i with flags := { i.flags with movable := false, selectable := false, focusable := false },
           selected := false }

end SceneItem

namespace Screencap

variable {R : Type} [LinearOrderedField R]

/-- Constructor `Screencap(scene, p, fixed)`: the item is added, centred in the scene,
made the only selected item, and pinned when `fixed`. -/
def new (d : Desktop R) (scene : QGraphicsScene R) (p : QPixmap) (fixed : Bool) :
    QGraphicsScene R :=
  let a := scene.nextAddr
  let s1 := scene.addNew (.screencap ⟨p, ⟨0, 0⟩⟩)
  let s2 := s1.modify a (fun i =>
    i.setPos ⟨(s1.width d - (p.width : R)) / 2, (s1.height d - (p.height : R)) / 2⟩)
  let s3 := s2.clearSelection
  let s4 := s3.modify a (fun i => i.setSelected true)
  if fixed then s4.modify a SceneItem.pin else s4

end Screencap

/-! ## Canvas (the drag-create controller) -/

/-- Tool selected in the tool bar. -/
inductive Action
  | ACTION_MOUSE
  | ACTION_ARROW
  | ACTION_ELLIPSE
  | ACTION_TEXT
  deriving DecidableEq, Repr

/-- Keys the canvas distinguishes. -/
inductive Key
  | Key_Delete
  | other (code : Nat)
  deriving DecidableEq, Repr

/-- The view (`Canvas`): its scene, the current colour, the item being created (a
pointer, absent when idle) and the view-to-scene coordinate mapping. -/
structure Canvas (R : Type) where
  scene : QGraphicsScene R
  currentColour : QColor
  currentItem : Option Nat
  mapToScene : QPoint → QPointF R

/-- Result of a canvas handler: the canvas afterwards, and whether the event was also
handed to the default handler of `QGraphicsView`. -/
structure Handled (R : Type) where
  canvas : Canvas R
  forwarded : Bool

namespace Canvas

variable {R : Type} [LinearOrderedField R]

/-- Constructor `Canvas(act, dc, parent)` followed by `setScene`. -/
def new (scene : QGraphicsScene R) (mapToScene : QPoint → QPointF R) : Canvas R :=
  { scene := scene, currentColour := QColor.qtRed, currentItem := none,
    mapToScene := mapToScene }

/-- Allocation `currentItem = new T(scene(), mapToScene(e->pos()), currentColour)`. -/
def create (c : Canvas R) (body : ItemBody R) : Canvas R :=
  { c with scene := c.scene.addNew body, currentItem := some c.scene.nextAddr }

/-- Handler `Canvas::mousePressEvent`; `currentAction` is the value the callback returns.
The `ACTION_TEXT` case has no `break` and runs into the default case. -/
def mousePressEvent (currentAction : Action) (c : Canvas R) (e : QMouseEvent) : Handled R :=
  match currentAction with
  | .ACTION_ARROW =>
    ⟨c.create (.arrow (Arrow.new (c.mapToScene e.pos) c.currentColour)), false⟩
  | .ACTION_ELLIPSE =>
    ⟨c.create (.ellipse (Ellipse.new (c.mapToScene e.pos) c.currentColour)), false⟩
  | .ACTION_TEXT =>
    ⟨c.create (.text (Text.new (c.mapToScene e.pos) c.currentColour)), true⟩
  | .ACTION_MOUSE => ⟨c, true⟩

/-- Handler `Canvas::mouseMoveEvent`. -/
def mouseMoveEvent (c : Canvas R) (e : QMouseEvent) : Handled R :=
  match c.currentItem with
  | some a =>
    if e.leftButton then
      ⟨{ c with scene := c.scene.modify a (fun i => i.sizeTo (c.mapToScene e.pos)) }, false⟩
    else ⟨c, true⟩
  | none => ⟨c, true⟩

/-- Handler `Canvas::mouseReleaseEvent`; `doneCreate` is the callback, acting on the
state `W` of its owner.  The event always goes on to the default handler. -/
def mouseReleaseEvent {W : Type} (doneCreate : W → W) (c : Canvas R) (w : W) :
    Handled R × W :=
  match c.currentItem with
  | some a =>
    (⟨{ c with scene := c.scene.modify a SceneItem.lostFocus, currentItem := none }, true⟩,
      doneCreate w)
  | none => (⟨c, true⟩, w)

/-- Handler `Canvas::keyPressEvent`. -/
def keyPressEvent (c : Canvas R) (key : Key) : Handled R :=
  if key = Key.Key_Delete then
    ⟨{ c with scene := c.scene.qDeleteAll c.scene.selectedItems }, false⟩
  else ⟨c, true⟩

end Canvas

/-! ## Document window (`Scappit`) and the region-select controller -/

/-- The dimming overlay (`OverlayWin`): whether it is shown and its clear rectangle. -/
structure OverlayWin where
  visible : Bool
  clear : QRect
  deriving DecidableEq, Repr

namespace OverlayWin

/-- Toolkit `setVisible`; `show()` is `setVisible true` and `hide()` is `setVisible false`. -/
def setVisible (o : OverlayWin) (v : Bool) : OverlayWin := { o with visible := v }
def clearRect (o : OverlayWin) (r : QRect) : OverlayWin := { o with clear := r }

end OverlayWin

/-- The actions of the tool group, in the order the constructor adds them. -/
def toolActions : List Action :=
  [Action.ACTION_MOUSE, Action.ACTION_ARROW, Action.ACTION_ELLIPSE, Action.ACTION_TEXT]

/-- One document window (`Scappit`).  `checkedAction` is the checked action of the
exclusive tool group; `filename` is a `QString` whose null value is `none`;
`mouseGrabbed` and `raised` record `grabMouse`/`releaseMouse` and `lower`/`raise`. -/
structure Scappit (R : Type) where
  view : Canvas R
  checkedAction : Action
  saveEnabled : Bool
  saveAsEnabled : Bool
  grabbing : Bool
  captureRegion : QRect
  overlay : OverlayWin
  dirty : Bool
  filename : Option String
  fixedCapture : Bool
  size : QSize
  mouseGrabbed : Bool
  raised : Bool

/-- Result of a window handler: the window afterwards, the screen grab it performed (if
any), and whether the event was handed to the default handler of `QMainWindow`. -/
structure Outcome (R : Type) where
  window : Scappit R
  grab : Option PixmapSource
  forwarded : Bool

namespace Scappit

variable {R : Type} [LinearOrderedField R]

def scene (s : Scappit R) : QGraphicsScene R := s.view.scene

def setScene (s : Scappit R) (sc : QGraphicsScene R) : Scappit R :=
  { s with view := { s.view with scene := sc } }

def setDirty (s : Scappit R) (v : Bool) : Scappit R :=
  { s with dirty := v, saveEnabled := v, saveAsEnabled := true, fixedCapture := false }

def setFilename (s : Scappit R) (f : String) : Scappit R := { s with filename := some f }

/-- Constructor `Scappit(filename)`. -/
def new (d : Desktop R) (mapToScene : QPoint → QPointF R) (filename : Option String) :
    Scappit R :=
  let w : Scappit R :=
    { view := Canvas.new QGraphicsScene.empty mapToScene,
      checkedAction := Action.ACTION_MOUSE,
      saveEnabled := false, saveAsEnabled := false,
      grabbing := false, captureRegion := QRect.null, overlay := ⟨false, QRect.null⟩,
      dirty := false, filename := none, fixedCapture := true,
      size := d.initialSize, mouseGrabbed := false, raised := true }
  match filename with
  | none => w.setScene (w.scene.setSceneRect ⟨0, 0, 820, 560⟩)
  | some f =>
    ((w.setScene (Screencap.new d w.scene (d.pixmap (.file f)) true)).setFilename f).setDirty
      false

/-- First callback handed to the canvas: the tool of the checked action. -/
def currentAction (s : Scappit R) : Action := s.checkedAction

/-- Second callback handed to the canvas: check the first action, mark dirty. -/
def doneCreate (s : Scappit R) : Scappit R :=
  ({ s with checkedAction := toolActions.headD Action.ACTION_MOUSE }).setDirty true

/-- Pointer-down on the canvas of this window. -/
def canvasMousePressEvent (s : Scappit R) (e : QMouseEvent) : Scappit R × Bool :=
  let r := s.view.mousePressEvent s.currentAction e
  ({ s with view := r.canvas }, r.forwarded)

/-- Pointer-move on the canvas of this window. -/
def canvasMouseMoveEvent (s : Scappit R) (e : QMouseEvent) : Scappit R × Bool :=
  let r := s.view.mouseMoveEvent e
  ({ s with view := r.canvas }, r.forwarded)

/-- Pointer-up on the canvas of this window. -/
def canvasMouseReleaseEvent (s : Scappit R) : Scappit R × Bool :=
  let r := s.view.mouseReleaseEvent doneCreate s
  ({ r.2 with view := r.1.canvas }, r.1.forwarded)

/-- Key press on the canvas of this window. -/
def canvasKeyPressEvent (s : Scappit R) (key : Key) : Scappit R × Bool :=
  let r := s.view.keyPressEvent key
  ({ s with view := r.canvas }, r.forwarded)

/-- Action "Open File", after the dialog returned `f` (`none` when cancelled): the
window afterwards and the windows newly created. -/
def openFile (d : Desktop R) (mapToScene : QPoint → QPointF R) (s : Scappit R)
    (f : Option String) : Scappit R × List (Scappit R) :=
  match f with
  | none => (s, [])
  | some f =>
    if s.dirty then (s, [Scappit.new d mapToScene (some f)])
    else
      (((s.setScene (Screencap.new d s.scene.clear (d.pixmap (.file f)) true)).setFilename
        f).setDirty false, [])

/-- Method `capture()`; the cursor shape and mouse tracking are not modelled. -/
def capture (s : Scappit R) : Scappit R :=
  { s with grabbing := true, mouseGrabbed := true, raised := false }

/-- Handler `Scappit::mousePressEvent`. -/
def mousePressEvent (s : Scappit R) (e : QMouseEvent) : Outcome R :=
  if s.grabbing then
    let r := (s.captureRegion.setTopLeft e.globalPos).setBottomRight e.globalPos
    ⟨{ s with captureRegion := r, raised := false }, none, false⟩
  else ⟨s, none, true⟩

/-- Handler `Scappit::mouseMoveEvent`. -/
def mouseMoveEvent (s : Scappit R) (e : QMouseEvent) : Outcome R :=
  if s.grabbing && e.leftButton then
    let o :=
      if s.captureRegion.topLeft = s.captureRegion.bottomRight then s.overlay.setVisible true
      else s.overlay
    let r := s.captureRegion.setBottomRight e.globalPos
    ⟨{ s with captureRegion := r, overlay := o.clearRect r }, none, false⟩
  else ⟨s, none, true⟩

/-- The grab chosen at pointer-up: the window under the pointer when the capture
rectangle is degenerate, else the normalized rectangle of the root window. -/
def grabSource [FloorRing R] (d : Desktop R) (s : Scappit R) : PixmapSource :=
  if s.captureRegion.topLeft = s.captureRegion.bottomRight then
    .window d.pointerChild
  else
    let r := (QRectF.ofQRect s.captureRegion : QRectF R).normalized.toAlignedRect
    .region r.x r.y r.width r.height

/-- Handler `Scappit::mouseReleaseEvent`. -/
def mouseReleaseEvent [FloorRing R] (d : Desktop R) (s : Scappit R) (_e : QMouseEvent) :
    Outcome R :=
  if s.grabbing then
    let s1 := { s with overlay := s.overlay.setVisible false, mouseGrabbed := false,
                       grabbing := false, raised := true }
    let src := grabSource d s1
    let s2 := s1.setScene (Screencap.new d s1.scene (d.pixmap src) s1.fixedCapture)
    let s3 :=
      if s2.fixedCapture then
        let sz : QSize :=
          ⟨s2.size.width - d.viewportSize.width + (s2.scene.currentRect d).size.toSize.width,
           s2.size.height - d.viewportSize.height
             + (s2.scene.currentRect d).size.toSize.height⟩
        { s2 with size := ⟨max sz.width s2.size.width, max sz.height s2.size.height⟩ }
      else s2
    ⟨s3.setDirty true, some src, false⟩
  else ⟨s, none, true⟩

end Scappit

/-! ## Program entry -/

/-- Character `argv[i][n]` of a C string: the characters of the argument followed by the
terminating NUL. -/
def charAt (arg : String) (n : Nat) : Char := arg.toList.getD n (Char.ofNat 0)

/-- The test `argv[i][0] == '-' && argv[i][1] == 'c' && argv[i][2] == 0` of `main`. -/
def isCaptureFlag (arg : String) : Bool :=
  charAt arg 0 == '-' && charAt arg 1 == 'c' && charAt arg 2 == Char.ofNat 0

/-- How `main` ends: the windows it created (in order), the exit code, and whether the
event loop `app.exec()` was entered. -/
structure MainResult (R : Type) where
  windows : List (Scappit R)
  exitCode : Int
  eventLoop : Bool

/-- State of the argument loop of `main`: the windows created so far and their count. -/
structure LoopState (R : Type) where
  windows : List (Scappit R)
  nWindows : Nat

/-- The `for` loop of `main` over the remaining arguments; the result carries the exit
code when the loop leaves `main` through `return 1`. -/
def mainLoop {R : Type} [LinearOrderedField R] (d : Desktop R)
    (mapToScene : QPoint → QPointF R) (isReadable : String → Bool) :
    List String → LoopState R → LoopState R × Option Int
  | [], st => (st, none)
  | arg :: rest, st =>
    if isCaptureFlag arg then
      (⟨st.windows ++ [(Scappit.new d mapToScene none).capture], st.nWindows + 1⟩, none)
    else if isReadable arg then
      mainLoop d mapToScene isReadable rest
        ⟨st.windows ++ [Scappit.new d mapToScene (some arg)], st.nWindows + 1⟩
    else (st, some 1)

/-- Function `main`; `argv` includes the program name `argv[0]`, `isReadable` is
`QFileInfo(arg).isReadable()`.  The first statement, `QApplication app(argc, argv)`,
takes `argc` and `argv` by reference and removes the options the toolkit recognises;
`app argv` is the argument list it leaves behind, and the loop runs over that list.
Falling off the end of `main` after the event loop returns 0. -/
def main {R : Type} [LinearOrderedField R] (d : Desktop R) (mapToScene : QPoint → QPointF R)
    (isReadable : String → Bool) (app : List String → List String) (argv : List String) :
    MainResult R :=
  match mainLoop d mapToScene isReadable ((app argv).drop 1) ⟨[], 0⟩ with
  | (st, some code) => ⟨st.windows, code, false⟩
  | (st, none) =>
    if st.nWindows = 0 then ⟨st.windows ++ [Scappit.new d mapToScene none], 0, true⟩
    else ⟨st.windows, 0, true⟩

/-! ## Gestures and sample data used to state the properties -/

namespace Scappit

variable {R : Type} [LinearOrderedField R]

/-- A run of pointer-move events delivered to the window, in order. -/
def drag (s : Scappit R) (moves : List QMouseEvent) : Scappit R :=
  moves.foldl (fun w e => (w.mouseMoveEvent e).window) s

/-- A whole selection gesture: pointer-down, the moves, pointer-up. -/
def gesture [FloorRing R] (d : Desktop R) (s : Scappit R) (down : QMouseEvent)
    (moves : List QMouseEvent) (up : QMouseEvent) : Outcome R :=
  mouseReleaseEvent d (drag (s.mousePressEvent down).window moves) up

end Scappit

namespace Sample

/-- A desktop on which every grab and every image is 640 by 480 pixels. -/
def desktop : Desktop ℚ :=
  { pointerChild := 7, pixelSize := fun _ => ⟨640, 480⟩, viewportSize := ⟨800, 540⟩,
    initialSize := ⟨860, 560⟩, itemsRect := fun _ => ⟨0, 0, 640, 480⟩ }

/-- The identity view transform. -/
def mapToScene (p : QPoint) : QPointF ℚ := ⟨(p.x : ℚ), (p.y : ℚ)⟩

/-- A fresh, empty document window. -/
def fresh : Scappit ℚ := Scappit.new desktop mapToScene none

/-- Pointer event at screen position `(x, y)` with the primary button held. -/
def ptr (x y : Int) : QMouseEvent := ⟨⟨x, y⟩, ⟨x, y⟩, true⟩

/-- A document with an unsaved edit. -/
def edited : Scappit ℚ := fresh.setDirty true

/-- A document in which a text item is being created: the Text tool was chosen and
the pointer went down on the canvas at (10,20). -/
def creating : Scappit ℚ :=
  (Scappit.canvasMousePressEvent { fresh with checkedAction := Action.ACTION_TEXT }
    (ptr 10 20)).1

/-- A desktop like `desktop` on which every grab is 1920 by 1080 pixels. -/
def largeDesktop : Desktop ℚ :=
  { pointerChild := 7, pixelSize := fun _ => ⟨1920, 1080⟩, viewportSize := ⟨800, 540⟩,
    initialSize := ⟨860, 560⟩, itemsRect := fun _ => ⟨0, 0, 1920, 1080⟩ }

/-- A fresh document on `largeDesktop` in the middle of its first capture: capture mode
was entered and the pointer went down at (50,50). -/
def armed : Scappit ℚ :=
  ((Scappit.new largeDesktop mapToScene none).capture.mousePressEvent (ptr 50 50)).window

/-- A toolkit whose application object recognises, and removes from the arguments, the
option `-reverse` and no other. -/
def qtArgs (argv : List String) : List String := argv.filter (fun a => a != "-reverse")

/-- A file system in which exactly `shot.png` is readable. -/
def isReadable (path : String) : Bool := path == "shot.png"

/-- A canvas holding an arrow (selected), an ellipse (not selected) and a text item
(selected), in this order. -/
def threeItems : Canvas ℚ :=
  { scene :=
      { items :=
          [⟨0, SceneItem.initialFlags, true, .arrow (Arrow.new ⟨0, 0⟩ QColor.qtRed)⟩,
           ⟨1, SceneItem.initialFlags, false, .ellipse (Ellipse.new ⟨5, 5⟩ QColor.qtRed)⟩,
           ⟨2, SceneItem.initialFlags, true, .text (Text.new ⟨9, 9⟩ QColor.qtRed)⟩],
        nextAddr := 3, sceneRect := none },
    currentColour := QColor.qtRed, currentItem := none, mapToScene := mapToScene }

end Sample

/-! ## Properties of the region-select controller -/

namespace Scappit

variable {R : Type}

theorem drag_grabbing (s : Scappit R) (moves : List QMouseEvent) :
    (s.drag moves).grabbing = s.grabbing := by
  induction moves generalizing s with
  | nil => rfl
  | cons e es ih =>
    have h : (s.drag (e :: es)) = ((s.mouseMoveEvent e).window).drag es := rfl
    rw [h, ih]
    unfold mouseMoveEvent
    split <;> rfl

theorem drag_fixedCapture (s : Scappit R) (moves : List QMouseEvent) :
    (s.drag moves).fixedCapture = s.fixedCapture := by
  induction moves generalizing s with
  | nil => rfl
  | cons e es ih =>
    have h : (s.drag (e :: es)) = ((s.mouseMoveEvent e).window).drag es := rfl
    rw [h, ih]
    unfold mouseMoveEvent
    split <;> rfl

/-- While grabbing, a run of moves with the primary button held leaves the first corner
of the capture rectangle alone and puts the second corner at the last move. -/
theorem drag_captureRegion (s : Scappit R) (moves : List QMouseEvent) (last : QMouseEvent)
    (hg : s.grabbing = true) (hb : ∀ e ∈ moves ++ [last], e.leftButton = true) :
    (s.drag (moves ++ [last])).captureRegion
      = ⟨s.captureRegion.x1, s.captureRegion.y1, last.globalPos.x, last.globalPos.y⟩ := by
  induction moves generalizing s with
  | nil =>
    have hl : last.leftButton = true := hb last (by simp)
    simp [drag, mouseMoveEvent, hg, hl, QRect.setBottomRight]
  | cons e es ih =>
    have he : e.leftButton = true := hb e (by simp)
    have h : (s.drag ((e :: es) ++ [last])) = ((s.mouseMoveEvent e).window).drag (es ++ [last]) :=
      rfl
    rw [h, ih]
    · simp [mouseMoveEvent, hg, he, QRect.setBottomRight]
    · simp [mouseMoveEvent, hg, he]
    · intro x hx
      exact hb x (by simp at hx ⊢; tauto)

/-- The integer rectangle obtained from a capture rectangle by conversion to reals,
normalization and alignment, in closed form, each axis on its own. -/
theorem aligned_normalized_ofQRect [LinearOrderedField R] [FloorRing R] (r : QRect) :
    (QRectF.ofQRect r : QRectF R).normalized.toAlignedRect
      = QRect.ofXYWH (min r.x1 (r.x2 + 1)) (min r.y1 (r.y2 + 1))
          |r.x2 - r.x1 + 1| |r.y2 - r.y1 + 1| := by
  have hw : (((r.x2 - r.x1 + 1 : Int) : R) < 0) ↔ r.x2 - r.x1 + 1 < 0 := Int.cast_lt_zero
  have hh : (((r.y2 - r.y1 + 1 : Int) : R) < 0) ↔ r.y2 - r.y1 + 1 < 0 := Int.cast_lt_zero
  have fl : ∀ a b : Int, ⌊(a : R) + (b : R)⌋ = a + b := fun a b => by
    rw [← Int.cast_add, Int.floor_intCast]
  have ce : ∀ a b : Int, ⌈(a : R) + (b : R)⌉ = a + b := fun a b => by
    rw [← Int.cast_add, Int.ceil_intCast]
  have ce3 : ∀ a b : Int, ⌈(a : R) + (b : R) + -(b : R)⌉ = a := fun a b => by
    rw [add_neg_cancel_right, Int.ceil_intCast]
  simp only [QRectF.normalized, QRectF.ofQRect, QRect.x, QRect.y, QRect.width, QRect.height,
    QRectF.toAlignedRect, QRect.ofXYWH]
  by_cases h1 : r.x2 - r.x1 + 1 < 0 <;> by_cases h2 : r.y2 - r.y1 + 1 < 0
  · simp only [hw.mpr h1, hh.mpr h2, if_true, fl, ce3, Int.floor_intCast, Int.ceil_intCast]
    rw [abs_of_neg h1, abs_of_neg h2, min_eq_right (by omega), min_eq_right (by omega)]
    simp only [QRect.mk.injEq]
    refine ⟨?_, ?_, ?_, ?_⟩ <;> first | trivial | omega
  · have h2n : ¬ (((r.y2 - r.y1 + 1 : Int) : R) < 0) := fun h => h2 (hh.mp h)
    simp only [hw.mpr h1, h2n, if_true, if_false, fl, ce, ce3, Int.floor_intCast,
      Int.ceil_intCast]
    rw [abs_of_neg h1, abs_of_nonneg (by omega), min_eq_right (by omega),
      min_eq_left (by omega)]
    simp only [QRect.mk.injEq]
    refine ⟨?_, ?_, ?_, ?_⟩ <;> first | trivial | omega
  · have h1n : ¬ (((r.x2 - r.x1 + 1 : Int) : R) < 0) := fun h => h1 (hw.mp h)
    simp only [hh.mpr h2, h1n, if_true, if_false, fl, ce, ce3, Int.floor_intCast,
      Int.ceil_intCast]
    rw [abs_of_nonneg (by omega), abs_of_neg h2, min_eq_left (by omega),
      min_eq_right (by omega)]
    simp only [QRect.mk.injEq]
    refine ⟨?_, ?_, ?_, ?_⟩ <;> first | trivial | omega
  · have h1n : ¬ (((r.x2 - r.x1 + 1 : Int) : R) < 0) := fun h => h1 (hw.mp h)
    have h2n : ¬ (((r.y2 - r.y1 + 1 : Int) : R) < 0) := fun h => h2 (hh.mp h)
    simp only [h1n, h2n, if_false, fl, ce, Int.floor_intCast, Int.ceil_intCast]
    rw [abs_of_nonneg (by omega), abs_of_nonneg (by omega), min_eq_left (by omega),
      min_eq_left (by omega)]
    simp only [QRect.mk.injEq]
    refine ⟨?_, ?_, ?_, ?_⟩ <;> first | trivial | omega

/-- C1: while grabbing, pointer-down at any position followed directly by pointer-up
(no move in between) resolves to a point capture, the grab of the window under the
pointer, and never to a region capture. -/
theorem click_is_point_capture [LinearOrderedField R] [FloorRing R] (d : Desktop R)
    (s : Scappit R) (down up : QMouseEvent) (hg : s.grabbing = true) :
    (s.gesture d down [] up).grab = some (.window d.pointerChild)
      ∧ ∀ x y w h : Int, (s.gesture d down [] up).grab ≠ some (.region x y w h) := by
  have key : (s.gesture d down [] up).grab = some (.window d.pointerChild) := by
    simp [gesture, drag, mousePressEvent, mouseReleaseEvent, grabSource, hg, setDirty,
      QRect.setTopLeft, QRect.setBottomRight, QRect.topLeft, QRect.bottomRight]
  refine ⟨key, ?_⟩
  intro x y w h
  rw [key]
  simp

/-- C1, the scenario of the specification: down at (50,50), up at (50,50). -/
theorem click_is_point_capture_witness :
    Sample.fresh.capture.grabbing = true
      ∧ (Sample.fresh.capture.gesture Sample.desktop (Sample.ptr 50 50) []
          (Sample.ptr 50 50)).grab = some (.window 7) :=
  ⟨rfl, (click_is_point_capture Sample.desktop Sample.fresh.capture (Sample.ptr 50 50)
    (Sample.ptr 50 50) rfl).1⟩

/-- C2 as stated fails: down at (50,50), a move to (60,60), a move back to (50,50) and
pointer-up contains a move that changes position, yet is resolved as a point capture. -/
theorem moved_gesture_point_capture :
    (Sample.ptr 60 60).globalPos ≠ (Sample.ptr 50 50).globalPos
      ∧ (Sample.fresh.capture.gesture Sample.desktop (Sample.ptr 50 50)
          [Sample.ptr 60 60, Sample.ptr 50 50] (Sample.ptr 50 50)).grab
        = some (.window 7) := by
  refine ⟨by decide, ?_⟩
  rfl

/-- The grab at the end of a gesture whose last move differs from the pointer-down
position, as the code computes it from the two positions. -/
theorem gesture_grab [LinearOrderedField R] [FloorRing R] (d : Desktop R)
    (s : Scappit R) (down : QMouseEvent) (moves : List QMouseEvent) (last up : QMouseEvent)
    (hg : s.grabbing = true) (hb : ∀ e ∈ moves ++ [last], e.leftButton = true)
    (hne : last.globalPos ≠ down.globalPos) :
    (s.gesture d down (moves ++ [last]) up).grab
        = some (.region (min down.globalPos.x (last.globalPos.x + 1))
            (min down.globalPos.y (last.globalPos.y + 1))
            |last.globalPos.x - down.globalPos.x + 1|
            |last.globalPos.y - down.globalPos.y + 1|) := by
  have hp : (s.mousePressEvent down).window.grabbing = true := by
    simp [mousePressEvent, hg]
  have hpr : (s.mousePressEvent down).window.captureRegion
      = ⟨down.globalPos.x, down.globalPos.y, down.globalPos.x, down.globalPos.y⟩ := by
    simp [mousePressEvent, hg, QRect.setTopLeft, QRect.setBottomRight]
  have hd := drag_captureRegion (s.mousePressEvent down).window moves last hp hb
  have hdg := drag_grabbing (s.mousePressEvent down).window (moves ++ [last])
  rw [hpr] at hd
  rw [hp] at hdg
  have hcorner : ¬ ((⟨down.globalPos.x, down.globalPos.y⟩ : QPoint)
      = ⟨last.globalPos.x, last.globalPos.y⟩) := by
    intro h
    apply hne
    cases hl : last.globalPos
    cases hdn : down.globalPos
    rw [hl, hdn] at h
    simp only [QPoint.mk.injEq] at h ⊢
    exact ⟨h.1.symm, h.2.symm⟩
  simp only [gesture, mouseReleaseEvent, hdg, if_true, grabSource, hd, QRect.topLeft,
    QRect.bottomRight, hcorner, if_false, aligned_normalized_ofQRect]
  simp only [QRect.ofXYWH, QRect.x, QRect.y, QRect.width, QRect.height, Option.some.injEq,
    PixmapSource.region.injEq]
  refine ⟨trivial, trivial, ?_, ?_⟩ <;> omega

/-- C2, amended: while grabbing, a gesture whose moves all have the primary button held
and whose last move is at a position different from the pointer-down position resolves
to a region capture of a rectangle `x, y, w, h` with non-negative width and height that
lies within the pixels spanned by the pointer-down position and the last move position.
On each axis on which the last move is not before the pointer-down position the
rectangle runs exactly from the pointer-down position to the last move position, both
included.  (What exactly is grabbed on an axis dragged backwards is not part of this
statement.) -/
theorem drag_is_region_capture [LinearOrderedField R] [FloorRing R] (d : Desktop R)
    (s : Scappit R) (down : QMouseEvent) (moves : List QMouseEvent) (last up : QMouseEvent)
    (hg : s.grabbing = true) (hb : ∀ e ∈ moves ++ [last], e.leftButton = true)
    (hne : last.globalPos ≠ down.globalPos) :
    ∃ x y w h : Int,
      (s.gesture d down (moves ++ [last]) up).grab = some (.region x y w h)
        ∧ 0 ≤ w ∧ 0 ≤ h
        ∧ min down.globalPos.x last.globalPos.x ≤ x
        ∧ x + w ≤ max down.globalPos.x last.globalPos.x + 1
        ∧ min down.globalPos.y last.globalPos.y ≤ y
        ∧ y + h ≤ max down.globalPos.y last.globalPos.y + 1
        ∧ (down.globalPos.x ≤ last.globalPos.x →
            x = down.globalPos.x ∧ w = last.globalPos.x - down.globalPos.x + 1)
        ∧ (down.globalPos.y ≤ last.globalPos.y →
            y = down.globalPos.y ∧ h = last.globalPos.y - down.globalPos.y + 1) := by
  have hax := abs_cases (last.globalPos.x - down.globalPos.x + 1)
  have hay := abs_cases (last.globalPos.y - down.globalPos.y + 1)
  refine ⟨_, _, _, _, gesture_grab d s down moves last up hg hb hne, abs_nonneg _,
    abs_nonneg _, ?_, ?_, ?_, ?_, ?_, ?_⟩
  · omega
  · rcases hax with h | h <;> omega
  · omega
  · rcases hay with h | h <;> omega
  · intro hle
    rcases hax with h | h <;> omega
  · intro hle
    rcases hay with h | h <;> omega

/-- C2, amended, on a drag from (50,50) over (55,52) to (70,65): the grab is the
rectangle of 21 by 16 pixels that starts at (50,50). -/
theorem drag_is_region_capture_witness :
    Sample.fresh.capture.grabbing = true
      ∧ (∀ e ∈ [Sample.ptr 55 52] ++ [Sample.ptr 70 65], e.leftButton = true)
      ∧ (Sample.ptr 70 65).globalPos ≠ (Sample.ptr 50 50).globalPos
      ∧ (Sample.fresh.capture.gesture Sample.desktop (Sample.ptr 50 50)
          ([Sample.ptr 55 52] ++ [Sample.ptr 70 65]) (Sample.ptr 50 50)).grab
        = some (.region 50 50 21 16) := by
  obtain ⟨x, y, w, h, hgrab, -, -, -, -, -, -, hx, hy⟩ :=
    drag_is_region_capture Sample.desktop Sample.fresh.capture (Sample.ptr 50 50)
      [Sample.ptr 55 52] (Sample.ptr 70 65) (Sample.ptr 50 50) rfl (by decide) (by decide)
  obtain ⟨hx1, hx2⟩ := hx (by decide)
  obtain ⟨hy1, hy2⟩ := hy (by decide)
  subst hx1 hx2 hy1 hy2
  exact ⟨rfl, by decide, by decide, hgrab⟩

end Scappit

/-! ## Properties of the canvas -/

namespace QGraphicsScene

variable {R : Type}

/-- Destroying the items of a list of addresses keeps the items at other addresses. -/
theorem qDeleteAll_items (s : QGraphicsScene R) (l : List Nat) :
    (s.qDeleteAll l).items = s.items.filter (fun i => decide (i.addr ∉ l)) := by
  induction l generalizing s with
  | nil => simp [qDeleteAll]
  | cons a as ih =>
    have h : s.qDeleteAll (a :: as) = (s.deleteItem a).qDeleteAll as := rfl
    rw [h, ih]
    simp only [deleteItem, List.filter_filter]
    apply List.filter_congr
    intro x _
    by_cases hx : x.addr = a <;> simp [hx]

/-- In a scene without shared addresses, an item has the address of a selected item
exactly when it is selected itself. -/
theorem mem_selectedItems (s : QGraphicsScene R)
    (hnd : (s.items.map (fun i => i.addr)).Nodup) (i : SceneItem R) (hi : i ∈ s.items) :
    i.addr ∈ s.selectedItems ↔ i.selected = true := by
  constructor
  · intro h
    simp only [selectedItems, List.mem_map, List.mem_filter] at h
    obtain ⟨j, ⟨hj, hsel⟩, hja⟩ := h
    have := List.inj_on_of_nodup_map hnd hj hi hja
    rw [← this]
    exact hsel
  · intro h
    simp only [selectedItems, List.mem_map, List.mem_filter]
    exact ⟨i, ⟨hi, h⟩, rfl⟩

end QGraphicsScene

namespace Canvas

variable {R : Type}

/-- C3: the Delete key removes exactly the selected items.  The scene afterwards is the
original ordered list without its selected items (so every unselected item is kept, in
its original relative order), it is shorter by the number of selected items, and with
nothing selected the canvas is unchanged. -/
theorem delete_removes_selected (c : Canvas R)
    (hnd : (c.scene.items.map (fun i => i.addr)).Nodup) :
    (c.keyPressEvent Key.Key_Delete).canvas.scene.items
        = c.scene.items.filter (fun i => !i.selected)
      ∧ (c.keyPressEvent Key.Key_Delete).canvas.scene.items.length
          + c.scene.selectedItems.length = c.scene.items.length
      ∧ (c.keyPressEvent Key.Key_Delete).canvas.scene.items.Sublist c.scene.items
      ∧ (c.scene.selectedItems = [] → (c.keyPressEvent Key.Key_Delete).canvas = c) := by
  have hitems : (c.keyPressEvent Key.Key_Delete).canvas.scene.items
      = c.scene.items.filter (fun i => !i.selected) := by
    simp only [keyPressEvent, if_true, QGraphicsScene.qDeleteAll_items]
    apply List.filter_congr
    intro x hx
    have := QGraphicsScene.mem_selectedItems c.scene hnd x hx
    by_cases hs : x.selected = true
    · simp [hs, this.mpr hs]
    · have hn : x.addr ∉ c.scene.selectedItems := fun h => hs (this.mp h)
      simp [hs, hn]
  refine ⟨hitems, ?_, ?_, ?_⟩
  · rw [hitems]
    simp only [QGraphicsScene.selectedItems, List.length_map]
    rw [List.length_eq_countP_add_countP (fun i => i.selected) c.scene.items,
      List.countP_eq_length_filter, List.countP_eq_length_filter, Nat.add_comm]
    congr 2
    apply List.filter_congr
    intro x _
    cases x.selected <;> simp
  · rw [hitems]
    exact List.filter_sublist _
  · intro h
    simp [keyPressEvent, h, QGraphicsScene.qDeleteAll]

/-- C3 on a scene of three items of which the first and the last are selected: only the
middle one is left. -/
theorem delete_removes_selected_witness :
    (Sample.threeItems.scene.items.map (fun i => i.addr)).Nodup
      ∧ (Sample.threeItems.keyPressEvent Key.Key_Delete).canvas.scene.items.map
          (fun i => i.addr) = [1] :=
  ⟨by decide, by
    rw [(delete_removes_selected Sample.threeItems (by decide)).1]
    rfl⟩

end Canvas

/-! ## Properties of the items -/

namespace Ellipse

variable {R : Type} [LinearOrderedField R]

/-- Resizing never moves the first corner of the stored rectangle. -/
theorem sizeTo_corner (e : Ellipse R) (ps : List (QPointF R)) :
    (ps.foldl sizeTo e).rect.xp = e.rect.xp ∧ (ps.foldl sizeTo e).rect.yp = e.rect.yp := by
  induction ps generalizing e with
  | nil => exact ⟨rfl, rfl⟩
  | cons q qs ih =>
    have h := ih (e.sizeTo q)
    simpa [sizeTo, QRectF.setWidth, QRectF.setHeight] using h

/-- C4: an ellipse created at `o` and sized to `p` (after any earlier resizes `ps` of the
same drag) stores the rectangle with first corner `o` and extents `p - o`, negative when
`p` is left of or above `o`; its normalized form is taken per axis: left `min o.x p.x`,
width `|p.x - o.x|`, top `min o.y p.y`, height `|p.y - o.y|`. -/
theorem sizeTo_rect (o p : QPointF R) (colour : QColor) (ps : List (QPointF R)) :
    ((ps.foldl sizeTo (new o colour)).sizeTo p).rect.xp = o.x
      ∧ ((ps.foldl sizeTo (new o colour)).sizeTo p).rect.yp = o.y
      ∧ ((ps.foldl sizeTo (new o colour)).sizeTo p).rect.w = p.x - o.x
      ∧ ((ps.foldl sizeTo (new o colour)).sizeTo p).rect.h = p.y - o.y
      ∧ ((ps.foldl sizeTo (new o colour)).sizeTo p).rect.normalized.left = min o.x p.x
      ∧ ((ps.foldl sizeTo (new o colour)).sizeTo p).rect.normalized.width = |p.x - o.x|
      ∧ ((ps.foldl sizeTo (new o colour)).sizeTo p).rect.normalized.top = min o.y p.y
      ∧ ((ps.foldl sizeTo (new o colour)).sizeTo p).rect.normalized.height = |p.y - o.y| := by
  obtain ⟨hx, hy⟩ := sizeTo_corner (new o colour) ps
  have hx0 : (ps.foldl sizeTo (new o colour)).rect.xp = o.x := hx
  have hy0 : (ps.foldl sizeTo (new o colour)).rect.yp = o.y := hy
  have hr : ((ps.foldl sizeTo (new o colour)).sizeTo p).rect
      = ⟨o.x, o.y, p.x - o.x, p.y - o.y⟩ := by
    simp [sizeTo, QRectF.setWidth, QRectF.setHeight, QRectF.topLeft, hx0, hy0]
  rw [hr]
  refine ⟨rfl, rfl, rfl, rfl, ?_, ?_, ?_, ?_⟩
  · by_cases h1 : p.x - o.x < 0 <;> by_cases h2 : p.y - o.y < 0 <;>
      simp only [QRectF.normalized, QRectF.left, h1, h2, if_true, if_false]
    · rw [min_eq_right (by linarith)]; ring
    · rw [min_eq_right (by linarith)]; ring
    · rw [min_eq_left (by linarith)]
    · rw [min_eq_left (by linarith)]
  · by_cases h1 : p.x - o.x < 0 <;> by_cases h2 : p.y - o.y < 0 <;>
      simp only [QRectF.normalized, QRectF.width, h1, h2, if_true, if_false]
    · rw [abs_of_neg h1]
    · rw [abs_of_neg h1]
    · rw [abs_of_nonneg (by linarith)]
    · rw [abs_of_nonneg (by linarith)]
  · by_cases h1 : p.x - o.x < 0 <;> by_cases h2 : p.y - o.y < 0 <;>
      simp only [QRectF.normalized, QRectF.top, h1, h2, if_true, if_false]
    · rw [min_eq_right (by linarith)]; ring
    · rw [min_eq_left (by linarith)]
    · rw [min_eq_right (by linarith)]; ring
    · rw [min_eq_left (by linarith)]
  · by_cases h1 : p.x - o.x < 0 <;> by_cases h2 : p.y - o.y < 0 <;>
      simp only [QRectF.normalized, QRectF.height, h1, h2, if_true, if_false]
    · rw [abs_of_neg h2]
    · rw [abs_of_nonneg (by linarith)]
    · rw [abs_of_neg h2]
    · rw [abs_of_nonneg (by linarith)]

end Ellipse

namespace QPainterPath

variable {R : Type}

/-- A `lineTo` to a point other than the current position appends a line element. -/
theorem lineTo_append [Zero R] [DecidableEq R] (init : QPainterPath R) (el : PathElement R)
    (p : QPointF R) (h : ¬(p.x = el.point.x ∧ p.y = el.point.y)) :
    QPainterPath.lineTo (init ++ [el]) p = init ++ [el] ++ [.lineTo p] := by
  unfold QPainterPath.lineTo QPainterPath.currentPosition
  simp [List.getLast?_concat, h]

/-- A `lineTo` to the current position leaves the path as it is. -/
theorem lineTo_same [Zero R] [DecidableEq R] (init : QPainterPath R) (el : PathElement R)
    (p : QPointF R) (h : p.x = el.point.x ∧ p.y = el.point.y) :
    QPainterPath.lineTo (init ++ [el]) p = init ++ [el] := by
  unfold QPainterPath.lineTo QPainterPath.currentPosition
  simp [List.getLast?_concat, h]

end QPainterPath

namespace Arrow

variable {R : Type}

/-- Offset of the vertex `vertex(0.8, d)` from the origin: 0.8 times the shaft `e - o`
turned by `d` degrees, given the addition formulas and the polar coordinates of the
shaft. -/
theorem vertex_offset [Field R] (m : MathLib R) (o e : QPointF R) (colour : QColor)
    (hcos : ∀ a b, m.cos (a + b) = m.cos a * m.cos b - m.sin a * m.sin b)
    (hsin : ∀ a b, m.sin (a + b) = m.sin a * m.cos b + m.cos a * m.sin b)
    (hx : m.length ⟨o, e⟩ * m.cos (m.angle ⟨o, e⟩ * m.pi / 180) = e.x - o.x)
    (hy : m.length ⟨o, e⟩ * m.sin (m.angle ⟨o, e⟩ * m.pi / 180) = -(e.y - o.y)) (d : R) :
    (((new o colour).sizeTo e).vertex m 0.8 d).x - o.x
        = 0.8 * ((e.x - o.x) * m.cos (d * m.pi / 180)
            + (e.y - o.y) * m.sin (d * m.pi / 180))
      ∧ (((new o colour).sizeTo e).vertex m 0.8 d).y - o.y
        = 0.8 * ((e.y - o.y) * m.cos (d * m.pi / 180)
            - (e.x - o.x) * m.sin (d * m.pi / 180)) := by
  have hl : ((new o colour).sizeTo e).line = ⟨o, e⟩ := rfl
  have hsplit : (m.angle ⟨o, e⟩ + d) * m.pi / 180
      = m.angle ⟨o, e⟩ * m.pi / 180 + d * m.pi / 180 := by ring
  constructor
  · simp only [vertex, hl, hsplit, hcos]
    linear_combination
      (0.8 * m.cos (d * m.pi / 180)) * hx - (0.8 * m.sin (d * m.pi / 180)) * hy
  · simp only [vertex, hl, hsplit, hsin]
    linear_combination
      (-(0.8 * m.cos (d * m.pi / 180))) * hy - (0.8 * m.sin (d * m.pi / 180)) * hx

/-- Squared distance of the vertex `vertex(0.8, d)` from the origin. -/
theorem vertex_dist [Field R] (m : MathLib R) (o e : QPointF R) (colour : QColor)
    (hcos : ∀ a b, m.cos (a + b) = m.cos a * m.cos b - m.sin a * m.sin b)
    (hsin : ∀ a b, m.sin (a + b) = m.sin a * m.cos b + m.cos a * m.sin b)
    (hunit : ∀ a, m.cos a ^ 2 + m.sin a ^ 2 = 1)
    (hx : m.length ⟨o, e⟩ * m.cos (m.angle ⟨o, e⟩ * m.pi / 180) = e.x - o.x)
    (hy : m.length ⟨o, e⟩ * m.sin (m.angle ⟨o, e⟩ * m.pi / 180) = -(e.y - o.y)) (d : R) :
    ((((new o colour).sizeTo e).vertex m 0.8 d).x - o.x) ^ 2
        + ((((new o colour).sizeTo e).vertex m 0.8 d).y - o.y) ^ 2
      = 0.8 ^ 2 * ((e.x - o.x) ^ 2 + (e.y - o.y) ^ 2) := by
  obtain ⟨hvx, hvy⟩ := vertex_offset m o e colour hcos hsin hx hy d
  rw [hvx, hvy]
  linear_combination
    (0.8 ^ 2 * ((e.x - o.x) ^ 2 + (e.y - o.y) ^ 2)) * hunit (d * m.pi / 180)

/-- An arrow whose endpoint is its origin has a one-element outline: every vertex is
the origin, so each of the six `lineTo` calls is dropped. -/
theorem path_degenerate [Field R] [DecidableEq R] (m : MathLib R) (o : QPointF R)
    (colour : QColor) (hlen : m.length ⟨o, o⟩ = 0) :
    ((new o colour).sizeTo o).path m = [.moveTo o] := by
  have hl : ((new o colour).sizeTo o).line = ⟨o, o⟩ := rfl
  have hv : ∀ d : R, ((new o colour).sizeTo o).vertex m 0.8 d = o := by
    intro d
    simp [vertex, hl, hlen]
  have h0 : (QPainterPath.empty.moveTo o : QPainterPath R) = [] ++ [.moveTo o] := rfl
  have hs : ∀ p : QPointF R, p = o →
      QPainterPath.lineTo (([] : QPainterPath R) ++ [.moveTo o]) p = [] ++ [.moveTo o] :=
    fun p hp => QPainterPath.lineTo_same [] (.moveTo o) p (by rw [hp]; exact ⟨rfl, rfl⟩)
  unfold path
  simp only [hl, hv, h0]
  rw [hs o rfl, hs o rfl, hs o rfl, hs o rfl, hs o rfl, hs o rfl]
  rfl

/-- Two barb vertices at angles whose cosines differ are different points, when the
endpoint is not the origin. -/
theorem vertex_ne_vertex [LinearOrderedField R] (m : MathLib R) (o e : QPointF R)
    (colour : QColor)
    (hcos : ∀ a b, m.cos (a + b) = m.cos a * m.cos b - m.sin a * m.sin b)
    (hsin : ∀ a b, m.sin (a + b) = m.sin a * m.cos b + m.cos a * m.sin b)
    (hx : m.length ⟨o, e⟩ * m.cos (m.angle ⟨o, e⟩ * m.pi / 180) = e.x - o.x)
    (hy : m.length ⟨o, e⟩ * m.sin (m.angle ⟨o, e⟩ * m.pi / 180) = -(e.y - o.y))
    (hD : 0 < (e.x - o.x) ^ 2 + (e.y - o.y) ^ 2) (a b : R)
    (hab : m.cos (a * m.pi / 180) ≠ m.cos (b * m.pi / 180)) :
    ¬((((new o colour).sizeTo e).vertex m 0.8 a).x
          = (((new o colour).sizeTo e).vertex m 0.8 b).x
        ∧ (((new o colour).sizeTo e).vertex m 0.8 a).y
          = (((new o colour).sizeTo e).vertex m 0.8 b).y) := by
  rintro ⟨h1, h2⟩
  obtain ⟨hax, hay⟩ := vertex_offset m o e colour hcos hsin hx hy a
  obtain ⟨hbx, hby⟩ := vertex_offset m o e colour hcos hsin hx hy b
  rw [h1] at hax
  rw [h2] at hay
  have key : ((e.x - o.x) ^ 2 + (e.y - o.y) ^ 2)
      * (m.cos (a * m.pi / 180) - m.cos (b * m.pi / 180)) = 0 := by
    linear_combination (1.25 * (e.x - o.x)) * (hbx - hax) + (1.25 * (e.y - o.y)) * (hby - hay)
  rcases mul_eq_zero.mp key with h | h
  · exact absurd h (ne_of_gt hD)
  · exact hab (sub_eq_zero.mp h)

/-- C5, amended: for an arrow with origin `o` sized to an endpoint `e` other than `o`,
the outline has exactly the seven vertices `o, v(3), v(8), e, v(-8), v(-3), o` in this
order, and every barb vertex `v(d)` lies at distance `0.8 * |e - o|` from `o` (stated on
the squares) in the direction of the shaft `e - o` turned by `d` degrees
(counter-clockwise on a screen whose y axis points down).  The C library and the
toolkit enter through what they guarantee: the addition formulas and
`cos^2 + sin^2 = 1`, that `length` and `angle` are the polar coordinates of `e - o`
measured counter-clockwise from the x axis, and that the cosines of 3 and 8 degrees (and
of -8 and -3 degrees) differ. -/
theorem path_vertices [LinearOrderedField R] [DecidableEq R] (m : MathLib R)
    (o e : QPointF R) (colour : QColor)
    (hcos : ∀ a b, m.cos (a + b) = m.cos a * m.cos b - m.sin a * m.sin b)
    (hsin : ∀ a b, m.sin (a + b) = m.sin a * m.cos b + m.cos a * m.sin b)
    (hunit : ∀ a, m.cos a ^ 2 + m.sin a ^ 2 = 1)
    (hx : m.length ⟨o, e⟩ * m.cos (m.angle ⟨o, e⟩ * m.pi / 180) = e.x - o.x)
    (hy : m.length ⟨o, e⟩ * m.sin (m.angle ⟨o, e⟩ * m.pi / 180) = -(e.y - o.y))
    (hne : o ≠ e)
    (h38 : m.cos (8 * m.pi / 180) ≠ m.cos (3 * m.pi / 180))
    (h83 : m.cos (-3 * m.pi / 180) ≠ m.cos (-8 * m.pi / 180)) :
    ((new o colour).sizeTo e).path m
        = [.moveTo o,
           .lineTo (((new o colour).sizeTo e).vertex m 0.8 3),
           .lineTo (((new o colour).sizeTo e).vertex m 0.8 8),
           .lineTo e,
           .lineTo (((new o colour).sizeTo e).vertex m 0.8 (-8)),
           .lineTo (((new o colour).sizeTo e).vertex m 0.8 (-3)),
           .lineTo o]
      ∧ (((new o colour).sizeTo e).path m).length = 7
      ∧ ∀ d : R,
          ((((new o colour).sizeTo e).vertex m 0.8 d).x - o.x) ^ 2
              + ((((new o colour).sizeTo e).vertex m 0.8 d).y - o.y) ^ 2
            = 0.8 ^ 2 * ((e.x - o.x) ^ 2 + (e.y - o.y) ^ 2)
          ∧ (((new o colour).sizeTo e).vertex m 0.8 d).x - o.x
            = 0.8 * ((e.x - o.x) * m.cos (d * m.pi / 180)
                + (e.y - o.y) * m.sin (d * m.pi / 180))
          ∧ (((new o colour).sizeTo e).vertex m 0.8 d).y - o.y
            = 0.8 * ((e.y - o.y) * m.cos (d * m.pi / 180)
                - (e.x - o.x) * m.sin (d * m.pi / 180)) := by
  have hD : 0 < (e.x - o.x) ^ 2 + (e.y - o.y) ^ 2 := by
    by_contra hnot
    have h1 : 0 ≤ (e.x - o.x) ^ 2 := sq_nonneg _
    have h2 : 0 ≤ (e.y - o.y) ^ 2 := sq_nonneg _
    have hx0 : (e.x - o.x) ^ 2 = 0 := by linarith
    have hy0 : (e.y - o.y) ^ 2 = 0 := by linarith
    have hxe : e.x = o.x := sub_eq_zero.mp (pow_eq_zero_iff (by norm_num) |>.mp hx0)
    have hye : e.y = o.y := sub_eq_zero.mp (pow_eq_zero_iff (by norm_num) |>.mp hy0)
    apply hne
    cases o
    cases e
    simp only [QPointF.mk.injEq]
    exact ⟨hxe.symm, hye.symm⟩
  have hdist := vertex_dist m o e colour hcos hsin hunit hx hy
  -- a barb vertex is neither the origin nor the endpoint
  have hvo : ∀ d : R, ¬((((new o colour).sizeTo e).vertex m 0.8 d).x = o.x
      ∧ (((new o colour).sizeTo e).vertex m 0.8 d).y = o.y) := by
    rintro d ⟨h1, h2⟩
    have h := hdist d
    rw [h1, h2] at h
    norm_num at h
    linarith
  have hve : ∀ d : R, ¬((((new o colour).sizeTo e).vertex m 0.8 d).x = e.x
      ∧ (((new o colour).sizeTo e).vertex m 0.8 d).y = e.y) := by
    rintro d ⟨h1, h2⟩
    have h := hdist d
    rw [h1, h2] at h
    have : (0.36 : R) * ((e.x - o.x) ^ 2 + (e.y - o.y) ^ 2) = 0 := by
      linear_combination h
    norm_num at this
    linarith
  have hpath : ((new o colour).sizeTo e).path m
      = [.moveTo o,
         .lineTo (((new o colour).sizeTo e).vertex m 0.8 3),
         .lineTo (((new o colour).sizeTo e).vertex m 0.8 8),
         .lineTo e,
         .lineTo (((new o colour).sizeTo e).vertex m 0.8 (-8)),
         .lineTo (((new o colour).sizeTo e).vertex m 0.8 (-3)),
         .lineTo o] := by
    have hl : ((new o colour).sizeTo e).line = ⟨o, e⟩ := rfl
    have h0 : (QPainterPath.empty.moveTo o : QPainterPath R) = [] ++ [.moveTo o] := rfl
    unfold path
    simp only [hl, h0]
    rw [QPainterPath.lineTo_append _ (.moveTo o) _ (hvo 3),
      QPainterPath.lineTo_append _ (.lineTo (((new o colour).sizeTo e).vertex m 0.8 3)) _
        (vertex_ne_vertex m o e colour hcos hsin hx hy hD 8 3 h38),
      QPainterPath.lineTo_append _ (.lineTo (((new o colour).sizeTo e).vertex m 0.8 8)) e
        (fun h => hve 8 ⟨h.1.symm, h.2.symm⟩),
      QPainterPath.lineTo_append _ (.lineTo e) _ (hve (-8)),
      QPainterPath.lineTo_append _
        (.lineTo (((new o colour).sizeTo e).vertex m 0.8 (-8))) _
        (vertex_ne_vertex m o e colour hcos hsin hx hy hD (-3) (-8) h83),
      QPainterPath.lineTo_append _
        (.lineTo (((new o colour).sizeTo e).vertex m 0.8 (-3))) o
        (fun h => hvo (-3) ⟨h.1.symm, h.2.symm⟩)]
    rfl
  refine ⟨hpath, by rw [hpath]; rfl, ?_⟩
  intro d
  obtain ⟨hvx, hvy⟩ := vertex_offset m o e colour hcos hsin hx hy d
  exact ⟨hdist d, hvx, hvy⟩

/-- C5 as stated fails: an arrow at (10,20) whose endpoint is (10,20) too, as after a
click without a drag or a drag back to the start, has an outline of one element, the
move to its origin, not seven vertices (over the real numbers, with the Euclidean
length). -/
theorem path_of_point_arrow :
    ((new (⟨10, 20⟩ : QPointF ℝ) QColor.qtRed).sizeTo ⟨10, 20⟩).path
          (⟨Real.cos, Real.sin, Real.pi,
          fun l => Real.sqrt ((l.p2.x - l.p1.x) ^ 2 + (l.p2.y - l.p1.y) ^ 2),
          fun l => if Complex.arg ⟨l.p2.x - l.p1.x, -(l.p2.y - l.p1.y)⟩ < 0
            then Complex.arg ⟨l.p2.x - l.p1.x, -(l.p2.y - l.p1.y)⟩ * 180 / Real.pi + 360
            else Complex.arg ⟨l.p2.x - l.p1.x, -(l.p2.y - l.p1.y)⟩ * 180 / Real.pi⟩
          : MathLib ℝ)
        = [.moveTo ⟨10, 20⟩]
      ∧ (((new (⟨10, 20⟩ : QPointF ℝ) QColor.qtRed).sizeTo ⟨10, 20⟩).path
          (⟨Real.cos, Real.sin, Real.pi,
          fun l => Real.sqrt ((l.p2.x - l.p1.x) ^ 2 + (l.p2.y - l.p1.y) ^ 2),
          fun l => if Complex.arg ⟨l.p2.x - l.p1.x, -(l.p2.y - l.p1.y)⟩ < 0
            then Complex.arg ⟨l.p2.x - l.p1.x, -(l.p2.y - l.p1.y)⟩ * 180 / Real.pi + 360
            else Complex.arg ⟨l.p2.x - l.p1.x, -(l.p2.y - l.p1.y)⟩ * 180 / Real.pi⟩
          : MathLib ℝ)).length = 1 := by
  have h := path_degenerate
    (⟨Real.cos, Real.sin, Real.pi,
          fun l => Real.sqrt ((l.p2.x - l.p1.x) ^ 2 + (l.p2.y - l.p1.y) ^ 2),
          fun l => if Complex.arg ⟨l.p2.x - l.p1.x, -(l.p2.y - l.p1.y)⟩ < 0
            then Complex.arg ⟨l.p2.x - l.p1.x, -(l.p2.y - l.p1.y)⟩ * 180 / Real.pi + 360
            else Complex.arg ⟨l.p2.x - l.p1.x, -(l.p2.y - l.p1.y)⟩ * 180 / Real.pi⟩
          : MathLib ℝ)
    ⟨10, 20⟩ QColor.qtRed (by simp)
  exact ⟨h, by rw [h]; rfl⟩

/-- C5, amended, on the arrow from (0,0) to (100,0), over the real numbers with the real
cosine and sine, the Euclidean length and the angle computed like the toolkit does
(`atan2` of `-dy` and `dx`, in degrees, brought into the range from 0 to 360): the
library guarantees hold, the outline has seven elements, and the barb vertices for 3 and
for -8 degrees lie 80 px from the origin at 3 and at -8 degrees. -/
theorem path_vertices_witness :
    (∀ a b : ℝ, Real.cos (a + b) = Real.cos a * Real.cos b - Real.sin a * Real.sin b)
      ∧ (∀ a b : ℝ, Real.sin (a + b) = Real.sin a * Real.cos b + Real.cos a * Real.sin b)
      ∧ (∀ a : ℝ, Real.cos a ^ 2 + Real.sin a ^ 2 = 1)
      ∧ MathLib.length
          (⟨Real.cos, Real.sin, Real.pi,
          fun l => Real.sqrt ((l.p2.x - l.p1.x) ^ 2 + (l.p2.y - l.p1.y) ^ 2),
          fun l => if Complex.arg ⟨l.p2.x - l.p1.x, -(l.p2.y - l.p1.y)⟩ < 0
            then Complex.arg ⟨l.p2.x - l.p1.x, -(l.p2.y - l.p1.y)⟩ * 180 / Real.pi + 360
            else Complex.arg ⟨l.p2.x - l.p1.x, -(l.p2.y - l.p1.y)⟩ * 180 / Real.pi⟩
          : MathLib ℝ) ⟨⟨0, 0⟩, ⟨100, 0⟩⟩ = 100
      ∧ MathLib.angle
          (⟨Real.cos, Real.sin, Real.pi,
          fun l => Real.sqrt ((l.p2.x - l.p1.x) ^ 2 + (l.p2.y - l.p1.y) ^ 2),
          fun l => if Complex.arg ⟨l.p2.x - l.p1.x, -(l.p2.y - l.p1.y)⟩ < 0
            then Complex.arg ⟨l.p2.x - l.p1.x, -(l.p2.y - l.p1.y)⟩ * 180 / Real.pi + 360
            else Complex.arg ⟨l.p2.x - l.p1.x, -(l.p2.y - l.p1.y)⟩ * 180 / Real.pi⟩
          : MathLib ℝ) ⟨⟨0, 0⟩, ⟨100, 0⟩⟩ = 0
      ∧ (⟨0, 0⟩ : QPointF ℝ) ≠ ⟨100, 0⟩
      ∧ Real.cos (8 * Real.pi / 180) ≠ Real.cos (3 * Real.pi / 180)
      ∧ Real.cos (-3 * Real.pi / 180) ≠ Real.cos (-8 * Real.pi / 180)
      ∧ (((new (⟨0, 0⟩ : QPointF ℝ) QColor.qtRed).sizeTo ⟨100, 0⟩).path
          (⟨Real.cos, Real.sin, Real.pi,
          fun l => Real.sqrt ((l.p2.x - l.p1.x) ^ 2 + (l.p2.y - l.p1.y) ^ 2),
          fun l => if Complex.arg ⟨l.p2.x - l.p1.x, -(l.p2.y - l.p1.y)⟩ < 0
            then Complex.arg ⟨l.p2.x - l.p1.x, -(l.p2.y - l.p1.y)⟩ * 180 / Real.pi + 360
            else Complex.arg ⟨l.p2.x - l.p1.x, -(l.p2.y - l.p1.y)⟩ * 180 / Real.pi⟩
          : MathLib ℝ)).length = 7
      ∧ (((new (⟨0, 0⟩ : QPointF ℝ) QColor.qtRed).sizeTo ⟨100, 0⟩).vertex
          (⟨Real.cos, Real.sin, Real.pi,
          fun l => Real.sqrt ((l.p2.x - l.p1.x) ^ 2 + (l.p2.y - l.p1.y) ^ 2),
          fun l => if Complex.arg ⟨l.p2.x - l.p1.x, -(l.p2.y - l.p1.y)⟩ < 0
            then Complex.arg ⟨l.p2.x - l.p1.x, -(l.p2.y - l.p1.y)⟩ * 180 / Real.pi + 360
            else Complex.arg ⟨l.p2.x - l.p1.x, -(l.p2.y - l.p1.y)⟩ * 180 / Real.pi⟩
          : MathLib ℝ) 0.8 3).x
        = 80 * Real.cos (3 * Real.pi / 180)
      ∧ (((new (⟨0, 0⟩ : QPointF ℝ) QColor.qtRed).sizeTo ⟨100, 0⟩).vertex
          (⟨Real.cos, Real.sin, Real.pi,
          fun l => Real.sqrt ((l.p2.x - l.p1.x) ^ 2 + (l.p2.y - l.p1.y) ^ 2),
          fun l => if Complex.arg ⟨l.p2.x - l.p1.x, -(l.p2.y - l.p1.y)⟩ < 0
            then Complex.arg ⟨l.p2.x - l.p1.x, -(l.p2.y - l.p1.y)⟩ * 180 / Real.pi + 360
            else Complex.arg ⟨l.p2.x - l.p1.x, -(l.p2.y - l.p1.y)⟩ * 180 / Real.pi⟩
          : MathLib ℝ) 0.8 3).y
        = -(80 * Real.sin (3 * Real.pi / 180))
      ∧ (((new (⟨0, 0⟩ : QPointF ℝ) QColor.qtRed).sizeTo ⟨100, 0⟩).vertex
          (⟨Real.cos, Real.sin, Real.pi,
          fun l => Real.sqrt ((l.p2.x - l.p1.x) ^ 2 + (l.p2.y - l.p1.y) ^ 2),
          fun l => if Complex.arg ⟨l.p2.x - l.p1.x, -(l.p2.y - l.p1.y)⟩ < 0
            then Complex.arg ⟨l.p2.x - l.p1.x, -(l.p2.y - l.p1.y)⟩ * 180 / Real.pi + 360
            else Complex.arg ⟨l.p2.x - l.p1.x, -(l.p2.y - l.p1.y)⟩ * 180 / Real.pi⟩
          : MathLib ℝ) 0.8 (-8)).x
        = 80 * Real.cos (-8 * Real.pi / 180)
      ∧ (((new (⟨0, 0⟩ : QPointF ℝ) QColor.qtRed).sizeTo ⟨100, 0⟩).vertex
          (⟨Real.cos, Real.sin, Real.pi,
          fun l => Real.sqrt ((l.p2.x - l.p1.x) ^ 2 + (l.p2.y - l.p1.y) ^ 2),
          fun l => if Complex.arg ⟨l.p2.x - l.p1.x, -(l.p2.y - l.p1.y)⟩ < 0
            then Complex.arg ⟨l.p2.x - l.p1.x, -(l.p2.y - l.p1.y)⟩ * 180 / Real.pi + 360
            else Complex.arg ⟨l.p2.x - l.p1.x, -(l.p2.y - l.p1.y)⟩ * 180 / Real.pi⟩
          : MathLib ℝ) 0.8 (-8)).y
        = -(80 * Real.sin (-8 * Real.pi / 180)) := by
  have harg : Complex.arg ⟨(100 : ℝ) - 0, -((0 : ℝ) - 0)⟩ = 0 := by
    have h : (⟨(100 : ℝ) - 0, -((0 : ℝ) - 0)⟩ : ℂ) = ((100 : ℝ) : ℂ) := by
      apply Complex.ext <;> simp
    rw [h]
    exact Complex.arg_ofReal_of_nonneg (by norm_num)
  have hlen : Real.sqrt (((100 : ℝ) - 0) ^ 2 + ((0 : ℝ) - 0) ^ 2) = 100 := by
    have h : ((100 : ℝ) - 0) ^ 2 + ((0 : ℝ) - 0) ^ 2 = 100 ^ 2 := by norm_num
    rw [h]
    exact Real.sqrt_sq (by norm_num)
  have hx : Real.sqrt (((100 : ℝ) - 0) ^ 2 + ((0 : ℝ) - 0) ^ 2)
      * Real.cos ((if Complex.arg ⟨(100 : ℝ) - 0, -((0 : ℝ) - 0)⟩ < 0
          then Complex.arg ⟨(100 : ℝ) - 0, -((0 : ℝ) - 0)⟩ * 180 / Real.pi + 360
          else Complex.arg ⟨(100 : ℝ) - 0, -((0 : ℝ) - 0)⟩ * 180 / Real.pi) * Real.pi / 180)
      = 100 - 0 := by
    rw [hlen, harg]
    simp
  have hy : Real.sqrt (((100 : ℝ) - 0) ^ 2 + ((0 : ℝ) - 0) ^ 2)
      * Real.sin ((if Complex.arg ⟨(100 : ℝ) - 0, -((0 : ℝ) - 0)⟩ < 0
          then Complex.arg ⟨(100 : ℝ) - 0, -((0 : ℝ) - 0)⟩ * 180 / Real.pi + 360
          else Complex.arg ⟨(100 : ℝ) - 0, -((0 : ℝ) - 0)⟩ * 180 / Real.pi) * Real.pi / 180)
      = -(0 - 0) := by
    rw [hlen, harg]
    simp
  have hsq : ∀ a : ℝ, Real.cos a ^ 2 + Real.sin a ^ 2 = 1 := fun a => by
    rw [add_comm]
    exact Real.sin_sq_add_cos_sq a
  have hne : (⟨0, 0⟩ : QPointF ℝ) ≠ ⟨100, 0⟩ := by
    intro h
    have hx0 := congrArg QPointF.x h
    norm_num at hx0
  have h38 : Real.cos (8 * Real.pi / 180) ≠ Real.cos (3 * Real.pi / 180) := by
    apply ne_of_lt
    apply Real.cos_lt_cos_of_nonneg_of_le_pi_div_two <;> linarith [Real.pi_pos]
  have h83 : Real.cos (-3 * Real.pi / 180) ≠ Real.cos (-8 * Real.pi / 180) := by
    have e3 : -3 * Real.pi / 180 = -(3 * Real.pi / 180) := by ring
    have e8 : -8 * Real.pi / 180 = -(8 * Real.pi / 180) := by ring
    rw [e3, e8, Real.cos_neg, Real.cos_neg]
    exact fun h => h38 h.symm
  have hmain := path_vertices
    (⟨Real.cos, Real.sin, Real.pi,
          fun l => Real.sqrt ((l.p2.x - l.p1.x) ^ 2 + (l.p2.y - l.p1.y) ^ 2),
          fun l => if Complex.arg ⟨l.p2.x - l.p1.x, -(l.p2.y - l.p1.y)⟩ < 0
            then Complex.arg ⟨l.p2.x - l.p1.x, -(l.p2.y - l.p1.y)⟩ * 180 / Real.pi + 360
            else Complex.arg ⟨l.p2.x - l.p1.x, -(l.p2.y - l.p1.y)⟩ * 180 / Real.pi⟩
          : MathLib ℝ)
    ⟨0, 0⟩ ⟨100, 0⟩ QColor.qtRed Real.cos_add Real.sin_add hsq hx hy hne h38 h83
  have key := hmain.2.2
  obtain ⟨_, h3x, h3y⟩ := key 3
  obtain ⟨_, h8x, h8y⟩ := key (-8)
  refine ⟨Real.cos_add, Real.sin_add, hsq, hlen, ?_, hne, h38, h83, hmain.2.1, ?_, ?_, ?_,
    ?_⟩
  · show (if Complex.arg ⟨(100 : ℝ) - 0, -((0 : ℝ) - 0)⟩ < 0
        then Complex.arg ⟨(100 : ℝ) - 0, -((0 : ℝ) - 0)⟩ * 180 / Real.pi + 360
        else Complex.arg ⟨(100 : ℝ) - 0, -((0 : ℝ) - 0)⟩ * 180 / Real.pi) = 0
    rw [harg]
    simp
  · linarith
  · linarith
  · linarith
  · linarith

end Arrow

/-! ## Properties of the document window -/

namespace Scappit

variable {R : Type}

/-- Updating items in place with a function that keeps addresses keeps the addresses. -/
theorem modify_addrs (sc : QGraphicsScene R) (a : Nat) (g : SceneItem R → SceneItem R)
    (hg : ∀ i, (g i).addr = i.addr) :
    (sc.modify a g).items.map (fun i => i.addr) = sc.items.map (fun i => i.addr) := by
  simp only [QGraphicsScene.modify, List.map_map]
  apply List.map_congr_left
  intro i _
  simp only [Function.comp]
  split
  · exact hg i
  · rfl

/-- The screenshot constructor appends one address, the fresh one. -/
theorem screencap_addrs [LinearOrderedField R] (d : Desktop R) (sc : QGraphicsScene R)
    (p : QPixmap) (fixed : Bool) :
    (Screencap.new d sc p fixed).items.map (fun i => i.addr)
      = sc.items.map (fun i => i.addr) ++ [sc.nextAddr] := by
  have hpos : ∀ (q : QPointF R) (i : SceneItem R), (i.setPos q).addr = i.addr := by
    intro q i
    unfold SceneItem.setPos
    split <;> rfl
  have hbase : ((sc.addNew (.screencap ⟨p, ⟨0, 0⟩⟩)).items.map (fun i => i.addr))
      = sc.items.map (fun i => i.addr) ++ [sc.nextAddr] := by
    simp [QGraphicsScene.addNew]
  have hclear : ∀ t : QGraphicsScene R,
      t.clearSelection.items.map (fun i => i.addr) = t.items.map (fun i => i.addr) := by
    intro t
    simp [QGraphicsScene.clearSelection, List.map_map, Function.comp]
  unfold Screencap.new
  simp only []
  split
  · rw [modify_addrs _ _ SceneItem.pin (fun _ => rfl),
      modify_addrs _ _ (fun i => i.setSelected true) (fun _ => rfl), hclear,
      modify_addrs _ _ _ (hpos _), hbase]
  · rw [modify_addrs _ _ (fun i => i.setSelected true) (fun _ => rfl), hclear,
      modify_addrs _ _ _ (hpos _), hbase]

/-- The scene of a window constructed from a file holds exactly one item: the pinned,
unselected screenshot of that file. -/
theorem new_file_items [LinearOrderedField R] (d : Desktop R)
    (mapToScene : QPoint → QPointF R) (f : String) :
    ∃ pos : QPointF R, (Scappit.new d mapToScene (some f)).scene.items
      = [⟨0, ⟨false, false, false, true⟩, false,
          .screencap ⟨d.pixmap (.file f), pos⟩⟩] :=
  ⟨_, rfl⟩

/-- C6: with the dirty flag set, the Open action on a chosen file `f` leaves the current
document as it is (scene items, file name and dirty flag included) and creates exactly
one new document window, which is the window constructed from `f`: it is named `f`, is
not dirty and shows the image of `f` as its only item. -/
theorem open_when_dirty [LinearOrderedField R] (d : Desktop R)
    (mapToScene : QPoint → QPointF R) (s : Scappit R) (f : String) (hd : s.dirty = true) :
    (s.openFile d mapToScene (some f)).1 = s
      ∧ (s.openFile d mapToScene (some f)).1.scene.items = s.scene.items
      ∧ (s.openFile d mapToScene (some f)).1.filename = s.filename
      ∧ (s.openFile d mapToScene (some f)).1.dirty = s.dirty
      ∧ (s.openFile d mapToScene (some f)).2 = [Scappit.new d mapToScene (some f)]
      ∧ (Scappit.new d mapToScene (some f)).filename = some f
      ∧ (Scappit.new d mapToScene (some f)).dirty = false
      ∧ ∃ pos : QPointF R, (Scappit.new d mapToScene (some f)).scene.items
          = [⟨0, ⟨false, false, false, true⟩, false,
              .screencap ⟨d.pixmap (.file f), pos⟩⟩] := by
  have h : s.openFile d mapToScene (some f) = (s, [Scappit.new d mapToScene (some f)]) := by
    simp [openFile, hd]
  rw [h]
  exact ⟨rfl, rfl, rfl, rfl, rfl, rfl, rfl, new_file_items d mapToScene f⟩

/-- C6 on a document with an unsaved edit and the file `shot.png`. -/
theorem open_when_dirty_witness :
    Sample.edited.dirty = true
      ∧ (Sample.edited.openFile Sample.desktop Sample.mapToScene (some "shot.png")).1
        = Sample.edited
      ∧ (Sample.edited.openFile Sample.desktop Sample.mapToScene (some "shot.png")).2.length
        = 1 :=
  ⟨rfl, (open_when_dirty Sample.desktop Sample.mapToScene Sample.edited "shot.png" rfl).1, by
    rw [(open_when_dirty Sample.desktop Sample.mapToScene Sample.edited "shot.png"
      rfl).2.2.2.2.1]
    rfl⟩

/-- Without unsaved edits the Open action replaces the scene in place: no new window, and
the current document takes the name `f` and the image of `f` as its only item. -/
theorem open_when_clean [LinearOrderedField R] (d : Desktop R)
    (mapToScene : QPoint → QPointF R) (s : Scappit R) (f : String) (hd : s.dirty = false) :
    (s.openFile d mapToScene (some f)).2 = []
      ∧ (s.openFile d mapToScene (some f)).1.filename = some f
      ∧ ((s.openFile d mapToScene (some f)).1.scene.items.map (fun i => i.addr))
        = [s.scene.nextAddr] := by
  have h : s.openFile d mapToScene (some f)
      = (((s.setScene (Screencap.new d s.scene.clear (d.pixmap (.file f)) true)).setFilename
          f).setDirty false, []) := by
    simp [openFile, hd]
  rw [h]
  refine ⟨rfl, rfl, ?_⟩
  have := screencap_addrs d s.scene.clear (d.pixmap (.file f)) true
  simpa [QGraphicsScene.clear] using this

end Scappit

/-! ## Properties of item creation on the canvas -/

namespace Canvas

variable {R : Type}

/-- C8 as stated fails: with the Arrow tool, pointer-down on the empty canvas of a fresh
document creates one item and makes it the current item, but the item is not marked
selected, and no item of the scene is selected afterwards. -/
theorem press_arrow_not_selected :
    ((Sample.fresh.view.mousePressEvent Action.ACTION_ARROW
        (Sample.ptr 10 20)).canvas.scene.items.map (fun i => i.selected)) = [false]
      ∧ (Sample.fresh.view.mousePressEvent Action.ACTION_ARROW
          (Sample.ptr 10 20)).canvas.scene.selectedItems = []
      ∧ (Sample.fresh.view.mousePressEvent Action.ACTION_ARROW
          (Sample.ptr 10 20)).canvas.currentItem = some 0 :=
  ⟨rfl, rfl, rfl⟩

/-- C8, amended: for each of the tools Arrow, Ellipse and Text, pointer-down appends
exactly one new item of that class to the scene, after the existing items, which are
left as they were; the new item has its origin at the scene position of the pointer and
the current colour, carries an address no existing item has, is not selected, and becomes
the current item.  For Arrow and Ellipse the event stops there; for Text it is also
handed to the default handler.  With the Pointer tool the canvas is unchanged (no item,
no current item set) and the event goes to the default handler. -/
theorem press_creates_item [LinearOrderedField R] (c : Canvas R) (e : QMouseEvent)
    (hwf : c.scene.WellFormed) :
    (c.mousePressEvent Action.ACTION_ARROW e).canvas.scene.items
        = c.scene.items ++ [⟨c.scene.nextAddr, SceneItem.initialFlags, false,
            .arrow ⟨⟨c.mapToScene e.pos, c.mapToScene e.pos⟩, c.currentColour,
              ⟨QColor.white, 2, JoinStyle.miterJoin⟩⟩⟩]
      ∧ (c.mousePressEvent Action.ACTION_ARROW e).canvas.currentItem = some c.scene.nextAddr
      ∧ (c.mousePressEvent Action.ACTION_ARROW e).forwarded = false
      ∧ (c.mousePressEvent Action.ACTION_ELLIPSE e).canvas.scene.items
        = c.scene.items ++ [⟨c.scene.nextAddr, SceneItem.initialFlags, false,
            .ellipse ⟨⟨(c.mapToScene e.pos).x, (c.mapToScene e.pos).y, 0, 0⟩, c.currentColour,
              ⟨QColor.white, 10, JoinStyle.bevelJoin⟩⟩⟩]
      ∧ (c.mousePressEvent Action.ACTION_ELLIPSE e).canvas.currentItem
        = some c.scene.nextAddr
      ∧ (c.mousePressEvent Action.ACTION_ELLIPSE e).forwarded = false
      ∧ (c.mousePressEvent Action.ACTION_TEXT e).canvas.scene.items
        = c.scene.items ++ [⟨c.scene.nextAddr, SceneItem.initialFlags, false,
            .text ⟨c.mapToScene e.pos, -1, c.currentColour,
              TextInteraction.NoTextInteraction⟩⟩]
      ∧ (c.mousePressEvent Action.ACTION_TEXT e).canvas.currentItem = some c.scene.nextAddr
      ∧ (c.mousePressEvent Action.ACTION_TEXT e).forwarded = true
      ∧ (∀ i ∈ c.scene.items, i.addr ≠ c.scene.nextAddr)
      ∧ (c.mousePressEvent Action.ACTION_MOUSE e).canvas = c
      ∧ (c.mousePressEvent Action.ACTION_MOUSE e).forwarded = true := by
  refine ⟨rfl, rfl, rfl, rfl, rfl, rfl, rfl, rfl, rfl, ?_, rfl, rfl⟩
  intro i hi
  exact Nat.ne_of_lt (hwf.1 i hi)

/-- C8, amended, on a canvas that already holds three items. -/
theorem press_creates_item_witness :
    Sample.threeItems.scene.WellFormed
      ∧ ((Sample.threeItems.mousePressEvent Action.ACTION_ELLIPSE
          (Sample.ptr 10 20)).canvas.scene.items.map (fun i => (i.addr, i.selected)))
        = [(0, true), (1, false), (2, true), (3, false)]
      ∧ (Sample.threeItems.mousePressEvent Action.ACTION_ELLIPSE
          (Sample.ptr 10 20)).canvas.currentItem = some 3 := by
  have hwf : Sample.threeItems.scene.WellFormed := by
    constructor
    · intro i hi
      simp only [Sample.threeItems, List.mem_cons, List.mem_singleton, List.not_mem_nil,
        or_false] at hi
      rcases hi with h | h | h <;> rw [h] <;> decide
    · decide
  have h := press_creates_item Sample.threeItems (Sample.ptr 10 20) hwf
  refine ⟨hwf, ?_, h.2.2.2.2.1⟩
  rw [h.2.2.2.1]
  rfl

end Canvas

namespace Scappit

variable {R : Type}

/-- C9: pointer-up on the canvas while an item is being created (the current item is
the item at address `a`) runs the lose-focus notification of that item and of no other,
leaves no current item, makes Pointer the active tool and marks the document dirty;
the event then goes on to the default handler.  Pointer-up on an idle canvas leaves
the whole window, the tool and the dirty flag included, as it was. -/
theorem release_completes_creation (s : Scappit R) (a : Nat)
    (h : s.view.currentItem = some a) :
    s.canvasMouseReleaseEvent.1.scene.items
        = s.scene.items.map (fun i => if i.addr = a then i.lostFocus else i)
      ∧ s.canvasMouseReleaseEvent.1.view.currentItem = none
      ∧ s.canvasMouseReleaseEvent.1.currentAction = Action.ACTION_MOUSE
      ∧ s.canvasMouseReleaseEvent.1.dirty = true
      ∧ s.canvasMouseReleaseEvent.2 = true
      ∧ ∀ t : Scappit R, t.view.currentItem = none →
          t.canvasMouseReleaseEvent.1 = t
            ∧ t.canvasMouseReleaseEvent.1.currentAction = t.currentAction
            ∧ t.canvasMouseReleaseEvent.1.dirty = t.dirty := by
  refine ⟨?_, ?_, ?_, ?_, ?_, ?_⟩
  · simp [canvasMouseReleaseEvent, Canvas.mouseReleaseEvent, h, scene, QGraphicsScene.modify]
  · simp [canvasMouseReleaseEvent, Canvas.mouseReleaseEvent, h]
  · simp [canvasMouseReleaseEvent, Canvas.mouseReleaseEvent, h, doneCreate, setDirty,
      currentAction, toolActions]
  · simp [canvasMouseReleaseEvent, Canvas.mouseReleaseEvent, h, doneCreate, setDirty]
  · simp [canvasMouseReleaseEvent, Canvas.mouseReleaseEvent, h]
  · intro t ht
    have : t.canvasMouseReleaseEvent.1 = t := by
      simp [canvasMouseReleaseEvent, Canvas.mouseReleaseEvent, ht]
    rw [this]
    exact ⟨rfl, rfl, rfl⟩

/-- C9 on a document in which a text item is being created: after pointer-up the tool
is Pointer again, the document is dirty, nothing is being created and the text item
has received its lose-focus notification. -/
theorem release_completes_creation_witness :
    Sample.creating.view.currentItem = some 0
      ∧ Sample.creating.currentAction = Action.ACTION_TEXT
      ∧ Sample.creating.dirty = false
      ∧ Sample.creating.canvasMouseReleaseEvent.1.currentAction = Action.ACTION_MOUSE
      ∧ Sample.creating.canvasMouseReleaseEvent.1.dirty = true
      ∧ Sample.creating.canvasMouseReleaseEvent.1.view.currentItem = none :=
  ⟨rfl, rfl, rfl, (release_completes_creation Sample.creating 0 rfl).2.2.1,
    (release_completes_creation Sample.creating 0 rfl).2.2.2.1,
    (release_completes_creation Sample.creating 0 rfl).2.1⟩

end Scappit

/-! ## Properties of the program entry -/

section Entry

variable {R : Type} [LinearOrderedField R]

/-- Readable arguments that are not the flag each add one window and the loop goes on. -/
theorem mainLoop_readable (d : Desktop R) (mapToScene : QPoint → QPointF R)
    (isReadable : String → Bool) (pre rest : List String) (st : LoopState R)
    (hpre : ∀ a ∈ pre, isCaptureFlag a = false ∧ isReadable a = true) :
    mainLoop d mapToScene isReadable (pre ++ rest) st
      = mainLoop d mapToScene isReadable rest
          ⟨st.windows ++ pre.map (fun a => Scappit.new d mapToScene (some a)),
            st.nWindows + pre.length⟩ := by
  induction pre generalizing st with
  | nil => simp
  | cons a as ih =>
    have ha := hpre a (by simp)
    have has : ∀ b ∈ as, isCaptureFlag b = false ∧ isReadable b = true :=
      fun b hb => hpre b (by simp [hb])
    have hstep : mainLoop d mapToScene isReadable ((a :: as) ++ rest) st
        = mainLoop d mapToScene isReadable (as ++ rest)
            ⟨st.windows ++ [Scappit.new d mapToScene (some a)], st.nWindows + 1⟩ := by
      simp only [List.cons_append, mainLoop, ha.1, ha.2, if_true, Bool.false_eq_true,
        if_false]
      rfl
    rw [hstep, ih _ has]
    simp [List.append_assoc, Nat.add_assoc, Nat.add_comm 1]

/-- On arguments that are all the flag or readable, the loop ends without an exit code
and with as many windows as it counted. -/
theorem mainLoop_accepts (d : Desktop R) (mapToScene : QPoint → QPointF R)
    (isReadable : String → Bool) (args : List String) (st : LoopState R)
    (hargs : ∀ a ∈ args, isCaptureFlag a = true ∨ isReadable a = true) :
    (mainLoop d mapToScene isReadable args st).2 = none := by
  induction args generalizing st with
  | nil => rfl
  | cons a as ih =>
    have has : ∀ b ∈ as, isCaptureFlag b = true ∨ isReadable b = true :=
      fun b hb => hargs b (by simp [hb])
    unfold mainLoop
    by_cases hc : isCaptureFlag a = true
    · simp [hc]
    · have hr : isReadable a = true := by
        rcases hargs a (by simp) with h | h
        · exact absurd h hc
        · exact h
      simp only [hc, hr, if_true, if_false]
      exact ih _ has

/-- C10 as stated fails in three ways.  An unreadable argument after the flag is never
looked at: `scappit -c missing.png` creates the capture window, enters the event loop
and ends with exit code 0.  An unreadable argument after a readable one ends the
program with exit code 1 only after a window was created for the readable one.  And an
option that the toolkit recognises, here `-reverse`, is neither `-c` nor readable, yet
it is removed before the loop: `scappit -reverse` opens one window and ends with exit
code 0. -/
theorem main_unreadable_not_fatal :
    isCaptureFlag "missing.png" = false ∧ Sample.isReadable "missing.png" = false
      ∧ (main Sample.desktop Sample.mapToScene Sample.isReadable Sample.qtArgs
          ["scappit", "-c", "missing.png"]).exitCode = 0
      ∧ (main Sample.desktop Sample.mapToScene Sample.isReadable Sample.qtArgs
          ["scappit", "-c", "missing.png"]).eventLoop = true
      ∧ (main Sample.desktop Sample.mapToScene Sample.isReadable Sample.qtArgs
          ["scappit", "shot.png", "missing.png"]).exitCode = 1
      ∧ (main Sample.desktop Sample.mapToScene Sample.isReadable Sample.qtArgs
          ["scappit", "shot.png", "missing.png"]).windows.length = 1
      ∧ isCaptureFlag "-reverse" = false ∧ Sample.isReadable "-reverse" = false
      ∧ (main Sample.desktop Sample.mapToScene Sample.isReadable Sample.qtArgs
          ["scappit", "-reverse"]).exitCode = 0
      ∧ (main Sample.desktop Sample.mapToScene Sample.isReadable Sample.qtArgs
          ["scappit", "-reverse"]).windows.length = 1 := by
  refine ⟨by decide, by decide, ?_, ?_, ?_, ?_, by decide, by decide, ?_, ?_⟩ <;> rfl

/-- C10, amended: take the arguments that are left after the application object has
removed the options the toolkit recognises.  When among them an argument that is neither
the flag `-c` nor readable comes up before any `-c` (all arguments `pre` in front of it
are readable files), `main` ends with exit code 1 without entering the event loop, after
creating one window per argument of `pre` (none when the bad argument is the first).
When instead `-c` comes up first, the arguments after it are not examined and the exit
code is 0.  When the arguments left are only `-c` and readable files, `main` never ends
with exit code 1: the event loop runs and the exit code is 0. -/
theorem main_usage_error (d : Desktop R) (mapToScene : QPoint → QPointF R)
    (isReadable : String → Bool) (app : List String → List String) (argv : List String)
    (prog : String) (pre : List String) (bad : String) (rest : List String)
    (happ : app argv = prog :: (pre ++ bad :: rest))
    (hpre : ∀ a ∈ pre, isCaptureFlag a = false ∧ isReadable a = true)
    (hbad : isCaptureFlag bad = false ∧ isReadable bad = false) :
    (main d mapToScene isReadable app argv).exitCode = 1
      ∧ (main d mapToScene isReadable app argv).eventLoop = false
      ∧ (main d mapToScene isReadable app argv).windows
        = pre.map (fun a => Scappit.new d mapToScene (some a))
      ∧ (∀ (argv2 : List String) (flag : String), isCaptureFlag flag = true →
          app argv2 = prog :: (pre ++ flag :: bad :: rest) →
          (main d mapToScene isReadable app argv2).exitCode = 0
            ∧ (main d mapToScene isReadable app argv2).windows
              = pre.map (fun a => Scappit.new d mapToScene (some a))
                  ++ [(Scappit.new d mapToScene none).capture])
      ∧ (∀ argv3 : List String,
          (∀ a ∈ (app argv3).drop 1, isCaptureFlag a = true ∨ isReadable a = true) →
          (main d mapToScene isReadable app argv3).exitCode = 0
            ∧ (main d mapToScene isReadable app argv3).eventLoop = true) := by
  have hloop : mainLoop d mapToScene isReadable (pre ++ bad :: rest) ⟨[], 0⟩
      = (⟨pre.map (fun a => Scappit.new d mapToScene (some a)), pre.length⟩, some 1) := by
    rw [mainLoop_readable d mapToScene isReadable pre (bad :: rest) ⟨[], 0⟩ hpre]
    simp [mainLoop, hbad.1, hbad.2]
  have hmain : main d mapToScene isReadable app argv
      = ⟨pre.map (fun a => Scappit.new d mapToScene (some a)), 1, false⟩ := by
    simp only [main, happ, List.drop_succ_cons, List.drop_zero, hloop]
  refine ⟨by rw [hmain], by rw [hmain], by rw [hmain], ?_, ?_⟩
  · intro argv2 flag hflag happ2
    have hl : mainLoop d mapToScene isReadable (pre ++ flag :: bad :: rest) ⟨[], 0⟩
        = (⟨pre.map (fun a => Scappit.new d mapToScene (some a))
              ++ [(Scappit.new d mapToScene none).capture], pre.length + 1⟩, none) := by
      rw [mainLoop_readable d mapToScene isReadable pre (flag :: bad :: rest) ⟨[], 0⟩ hpre]
      simp [mainLoop, hflag]
    have hm : main d mapToScene isReadable app argv2
        = ⟨pre.map (fun a => Scappit.new d mapToScene (some a))
              ++ [(Scappit.new d mapToScene none).capture], 0, true⟩ := by
      simp only [main, happ2, List.drop_succ_cons, List.drop_zero, hl]
      simp
    rw [hm]
    exact ⟨rfl, rfl⟩
  · intro argv3 hargs
    have hnone :=
      mainLoop_accepts d mapToScene isReadable ((app argv3).drop 1) ⟨[], 0⟩ hargs
    simp only [main]
    generalize mainLoop d mapToScene isReadable ((app argv3).drop 1) ⟨[], 0⟩ = r at hnone
    obtain ⟨st, ex⟩ := r
    simp only at hnone
    subst hnone
    simp only []
    split <;> exact ⟨rfl, rfl⟩

/-- C10, amended, on `scappit -reverse shot.png missing.png -c` with a toolkit that
removes `-reverse`. -/
theorem main_usage_error_witness :
    Sample.qtArgs ["scappit", "-reverse", "shot.png", "missing.png", "-c"]
        = "scappit" :: (["shot.png"] ++ "missing.png" :: ["-c"])
      ∧ (∀ a ∈ ["shot.png"], isCaptureFlag a = false ∧ Sample.isReadable a = true)
      ∧ (isCaptureFlag "missing.png" = false ∧ Sample.isReadable "missing.png" = false)
      ∧ (main Sample.desktop Sample.mapToScene Sample.isReadable Sample.qtArgs
          ["scappit", "-reverse", "shot.png", "missing.png", "-c"]).exitCode = 1 :=
  ⟨by decide, by decide, by decide,
    (main_usage_error Sample.desktop Sample.mapToScene Sample.isReadable Sample.qtArgs
      ["scappit", "-reverse", "shot.png", "missing.png", "-c"] "scappit"
      ["shot.png"] "missing.png" ["-c"] (by decide) (by decide) (by decide)).1⟩

end Entry

/-! ## Properties of the first capture -/

namespace Scappit

variable {R : Type}

/-- Rounding an integer value gives that integer. -/
theorem qRound_intCast [LinearOrderedField R] [FloorRing R] (n : Int) :
    qRound (n : R) = n := by
  unfold qRound
  split
  · rw [Int.floor_eq_iff]
    constructor <;> linarith
  · rw [Int.ceil_eq_iff]
    constructor <;> linarith

/-- The screenshot constructor leaves the scene rectangle setting alone. -/
theorem screencap_sceneRect [LinearOrderedField R] (d : Desktop R) (sc : QGraphicsScene R)
    (p : QPixmap) (fixed : Bool) :
    (Screencap.new d sc p fixed).sceneRect = sc.sceneRect := by
  unfold Screencap.new
  simp only []
  split <;> rfl

/-- Window size after a pointer-up that ends a capture while `fixedCapture` is set and
the scene has the explicit rectangle `r`: per axis the larger of the old size and the
old size minus the viewport plus the rounded extent of `r`. -/
theorem release_fixed_size [LinearOrderedField R] [FloorRing R] (d : Desktop R)
    (s : Scappit R) (e : QMouseEvent) (r : QRectF R) (hg : s.grabbing = true)
    (hf : s.fixedCapture = true) (hr : s.scene.sceneRect = some r) :
    (s.mouseReleaseEvent d e).window.size
      = ⟨max (s.size.width - d.viewportSize.width + qRound r.w) s.size.width,
         max (s.size.height - d.viewportSize.height + qRound r.h) s.size.height⟩ := by
  have hrect : ∀ (p : QPixmap) (fixed : Bool),
      (Screencap.new d s.view.scene p fixed).currentRect d = r := by
    intro p fixed
    unfold QGraphicsScene.currentRect
    rw [screencap_sceneRect]
    have : s.view.scene.sceneRect = some r := hr
    rw [this]
  simp only [mouseReleaseEvent, hg, if_true, setScene, scene, hf, setDirty, hrect,
    QRectF.size, QSizeF.toSize]

/-- The item a pinning screenshot constructor puts last in the scene: the new
screenshot, not movable, not selectable, not focusable and not selected. -/
theorem screencap_last [LinearOrderedField R] (d : Desktop R) (sc : QGraphicsScene R)
    (p : QPixmap) :
    ∃ pos : QPointF R, (Screencap.new d sc p true).items.getLast?
      = some ⟨sc.nextAddr, ⟨false, false, false, true⟩, false,
          .screencap ⟨p, pos⟩⟩ := by
  refine ⟨⟨((sc.addNew (.screencap ⟨p, ⟨0, 0⟩⟩)).width d - (p.width : R)) / 2,
    ((sc.addNew (.screencap ⟨p, ⟨0, 0⟩⟩)).height d - (p.height : R)) / 2⟩, ?_⟩
  simp only [Screencap.new, if_true, QGraphicsScene.modify, QGraphicsScene.addNew,
    QGraphicsScene.clearSelection, List.map_append, List.map_cons, List.map_nil,
    List.getLast?_concat, SceneItem.setPos, SceneItem.setSelected, SceneItem.pin,
    SceneItem.initialFlags]

/-- C11 as stated fails: in a fresh document on a desktop whose grabs are 1920 by 1080
pixels, with window size 860 by 560 and viewport 800 by 540, the first capture (a click
at (50,50)) leaves the window at 880 by 580, below `S - V + C` = 1980 by 1100. -/
theorem first_capture_window_too_small :
    (Sample.armed.mouseReleaseEvent Sample.largeDesktop (Sample.ptr 50 50)).grab
        = some (.window 7)
      ∧ (Sample.armed.mouseReleaseEvent Sample.largeDesktop (Sample.ptr 50 50)).window.size
        = ⟨880, 580⟩
      ∧ (Sample.armed.mouseReleaseEvent Sample.largeDesktop
            (Sample.ptr 50 50)).window.size.width
          < Sample.armed.size.width - Sample.largeDesktop.viewportSize.width
            + (Sample.largeDesktop.pixmap (.window 7)).width
      ∧ (Sample.armed.mouseReleaseEvent Sample.largeDesktop
            (Sample.ptr 50 50)).window.size.height
          < Sample.armed.size.height - Sample.largeDesktop.viewportSize.height
            + (Sample.largeDesktop.pixmap (.window 7)).height := by
  have hw : qRound (820 : ℚ) = 820 := by
    have h := @qRound_intCast ℚ _ _ 820
    simpa using h
  have hh : qRound (560 : ℚ) = 560 := by
    have h := @qRound_intCast ℚ _ _ 560
    simpa using h
  have hs : (Sample.armed.mouseReleaseEvent Sample.largeDesktop
      (Sample.ptr 50 50)).window.size = ⟨880, 580⟩ := by
    rw [release_fixed_size Sample.largeDesktop Sample.armed (Sample.ptr 50 50)
      ⟨0, 0, 820, 560⟩ rfl rfl rfl]
    simp only [hw, hh]
    decide
  refine ⟨rfl, hs, ?_, ?_⟩
  · rw [hs]
    decide
  · rw [hs]
    decide

/-- Pointer moves of the region selection touch neither the canvas nor the window size. -/
theorem drag_view_size (s : Scappit R) (moves : List QMouseEvent) :
    (s.drag moves).view = s.view ∧ (s.drag moves).size = s.size := by
  induction moves generalizing s with
  | nil => exact ⟨rfl, rfl⟩
  | cons e es ih =>
    have h : (s.drag (e :: es)) = ((s.mouseMoveEvent e).window).drag es := rfl
    rw [h, (ih _).1, (ih _).2]
    unfold mouseMoveEvent
    split <;> exact ⟨rfl, rfl⟩

/-- A fresh document that entered capture mode and received pointer-down and any moves
is grabbing, still has `fixedCapture` set, still has the scene rectangle of the
constructor, 820 by 560, and the window size it was created with. -/
theorem fresh_gesture_state [LinearOrderedField R] (d : Desktop R)
    (mapToScene : QPoint → QPointF R) (down : QMouseEvent) (moves : List QMouseEvent) :
    (((Scappit.new d mapToScene none).capture.mousePressEvent down).window.drag
        moves).grabbing = true
      ∧ (((Scappit.new d mapToScene none).capture.mousePressEvent down).window.drag
          moves).fixedCapture = true
      ∧ (((Scappit.new d mapToScene none).capture.mousePressEvent down).window.drag
          moves).scene.sceneRect = some ⟨0, 0, 820, 560⟩
      ∧ (((Scappit.new d mapToScene none).capture.mousePressEvent down).window.drag
          moves).size = d.initialSize := by
  refine ⟨?_, ?_, ?_, ?_⟩
  · rw [drag_grabbing]
    rfl
  · rw [drag_fixedCapture]
    rfl
  · unfold scene
    rw [(drag_view_size _ _).1]
    rfl
  · rw [(drag_view_size _ _).2]
    rfl

/-- The grab reported by a pointer-up that ends a capture. -/
theorem release_grab [LinearOrderedField R] [FloorRing R] (d : Desktop R) (s : Scappit R)
    (e : QMouseEvent) (hg : s.grabbing = true) :
    (s.mouseReleaseEvent d e).grab = some (grabSource d s) := by
  simp only [mouseReleaseEvent, hg, if_true]
  rfl

/-- The scene after a pointer-up that ends a capture: the old scene with the grabbed
pixels added by the screenshot constructor, pinned exactly when `fixedCapture` is set. -/
theorem release_scene [LinearOrderedField R] [FloorRing R] (d : Desktop R) (s : Scappit R)
    (e : QMouseEvent) (hg : s.grabbing = true) :
    (s.mouseReleaseEvent d e).window.scene
      = Screencap.new d s.scene (d.pixmap (grabSource d s)) s.fixedCapture := by
  simp only [mouseReleaseEvent, hg, if_true]
  split <;> rfl

/-- After a pointer-up that ends a capture, `fixedCapture` is cleared and the document
is dirty. -/
theorem release_flags [LinearOrderedField R] [FloorRing R] (d : Desktop R) (s : Scappit R)
    (e : QMouseEvent) (hg : s.grabbing = true) :
    (s.mouseReleaseEvent d e).window.fixedCapture = false
      ∧ (s.mouseReleaseEvent d e).window.dirty = true := by
  simp only [mouseReleaseEvent, hg, if_true]
  exact ⟨rfl, rfl⟩

/-- C11, amended: at the pointer-up that ends the first capture of a fresh document
(`fixedCapture` still set, scene rectangle still the 820 by 560 of the constructor), with
window size `S` and viewport size `V`, the window size afterwards is, for width and for
height on their own, the larger of `S` and `S - V + (820, 560)`: it is at least
`S - V +` the size of the scene rectangle and at least `S`, never smaller than before,
and does not depend on the size of the captured pixels.  The captured pixels go into the
scene as the last item, pinned (not movable, not selectable, not focusable); afterwards
`fixedCapture` is cleared and the document is dirty. -/
theorem first_capture_resize [LinearOrderedField R] [FloorRing R] (d : Desktop R)
    (s : Scappit R) (e : QMouseEvent) (hg : s.grabbing = true)
    (hf : s.fixedCapture = true) (hr : s.scene.sceneRect = some ⟨0, 0, 820, 560⟩) :
    (s.mouseReleaseEvent d e).window.size.width
        = max (s.size.width - d.viewportSize.width + 820) s.size.width
      ∧ (s.mouseReleaseEvent d e).window.size.height
        = max (s.size.height - d.viewportSize.height + 560) s.size.height
      ∧ s.size.width - d.viewportSize.width + 820
          ≤ (s.mouseReleaseEvent d e).window.size.width
      ∧ s.size.width ≤ (s.mouseReleaseEvent d e).window.size.width
      ∧ s.size.height - d.viewportSize.height + 560
          ≤ (s.mouseReleaseEvent d e).window.size.height
      ∧ s.size.height ≤ (s.mouseReleaseEvent d e).window.size.height
      ∧ (∃ (src : PixmapSource) (pos : QPointF R),
          (s.mouseReleaseEvent d e).grab = some src
            ∧ (s.mouseReleaseEvent d e).window.scene.items.getLast?
              = some ⟨s.scene.nextAddr, ⟨false, false, false, true⟩, false,
                  .screencap ⟨d.pixmap src, pos⟩⟩)
      ∧ (s.mouseReleaseEvent d e).window.fixedCapture = false
      ∧ (s.mouseReleaseEvent d e).window.dirty = true := by
  have hw : qRound (820 : R) = 820 := by
    have h := @qRound_intCast R _ _ 820
    simpa using h
  have hh : qRound (560 : R) = 560 := by
    have h := @qRound_intCast R _ _ 560
    simpa using h
  have hsize := release_fixed_size d s e ⟨0, 0, 820, 560⟩ hg hf hr
  simp only [hw, hh] at hsize
  rw [hsize]
  refine ⟨rfl, rfl, le_max_left _ _, le_max_right _ _, le_max_left _ _, le_max_right _ _,
    ?_, ?_, ?_⟩
  · obtain ⟨pos, hpos⟩ := screencap_last d s.scene (d.pixmap (grabSource d s))
    refine ⟨grabSource d s, pos, release_grab d s e hg, ?_⟩
    rw [release_scene d s e hg, hf]
    exact hpos
  · exact (release_flags d s e hg).1
  · exact (release_flags d s e hg).2

/-- C11, amended, on a fresh document of size 860 by 560 with viewport 800 by 540 whose
first capture is a click at (50,50) grabbing 640 by 480 pixels: the window grows to 880
by 580. -/
theorem first_capture_resize_witness :
    (Sample.fresh.capture.mousePressEvent (Sample.ptr 50 50)).window.grabbing = true
      ∧ (Sample.fresh.capture.mousePressEvent (Sample.ptr 50 50)).window.fixedCapture = true
      ∧ (Sample.fresh.capture.mousePressEvent (Sample.ptr 50 50)).window.scene.sceneRect
        = some ⟨0, 0, 820, 560⟩
      ∧ ((Sample.fresh.capture.mousePressEvent (Sample.ptr 50 50)).window.mouseReleaseEvent
          Sample.desktop (Sample.ptr 50 50)).window.size.width = 880
      ∧ ((Sample.fresh.capture.mousePressEvent (Sample.ptr 50 50)).window.mouseReleaseEvent
          Sample.desktop (Sample.ptr 50 50)).window.size.height = 580 :=
  ⟨rfl, rfl, rfl,
    (first_capture_resize Sample.desktop
      (Sample.fresh.capture.mousePressEvent (Sample.ptr 50 50)).window (Sample.ptr 50 50)
      rfl rfl rfl).1.trans (by decide),
    (first_capture_resize Sample.desktop
      (Sample.fresh.capture.mousePressEvent (Sample.ptr 50 50)).window (Sample.ptr 50 50)
      rfl rfl rfl).2.1.trans (by decide)⟩

end Scappit

end scappit
